import Mathlib

set_option maxHeartbeats 1000000
set_option maxRecDepth 4000

/-!
Verification of the multi-format configuration merge engine, the installer
orchestrator and the Zed client plugin of the kodegen bundler autoconfig
crate.  The document trees of the four serialization libraries
(serde_json, toml, serde_yaml, plist) are embedded as inductive types with
ordered association-list maps; the libraries' parse and serialize functions
themselves are external dependencies of the crate and are therefore taken
as parameters, constrained where needed by their documented round-trip
contract.  The merge, injection and orchestration logic is translated
directly from src/config.rs, src/install.rs and src/clients/zed.rs.
-/

/-- Association-list lookup, modelling key lookup in the ordered maps of the
serialization libraries (serde_json Map, toml Map, serde_yaml Mapping,
plist Dictionary). -/
def findKV {κ α : Type} [DecidableEq κ] (k : κ) : List (κ × α) → Option α
  | [] => none
  | (k', v) :: rest => if k' = k then some v else findKV k rest

/-- Association-list insert, modelling Map insert: replaces the value in
place when the key is already present, otherwise appends the binding at the
end (the preserve-order map behaviour). -/
def setKV {κ α : Type} [DecidableEq κ] (k : κ) (v : α) : List (κ × α) → List (κ × α)
  | [] => [(k, v)]
  | (k', v') :: rest => if k' = k then (k, v) :: rest else (k', v') :: setKV k v rest

/-- Model of the Rust check existing.trim().is_empty(): the string consists
only of whitespace characters (or is empty). -/
def isBlank (s : String) : Bool := s.data.all Char.isWhitespace

/-- Boolean list-prefix test used to model substring search. -/
def isPrefixB {α : Type} [DecidableEq α] : List α → List α → Bool
  | [], _ => true
  | _ :: _, [] => false
  | a :: as, b :: bs => if a = b then isPrefixB as bs else false

/-- Boolean test that needle occurs as a contiguous subsequence of hay. -/
def containsSeq {α : Type} [DecidableEq α] (needle hay : List α) : Bool :=
  hay.tails.any (fun t => isPrefixB needle t)

/-- Model of Rust str::contains with a literal pattern (substring search on
the raw file text). -/
def strContains (hay needle : String) : Bool := containsSeq needle.data hay.data

/-- The closed set of supported configuration formats (src/lib.rs). -/
inductive ConfigFormat : Type where
  | Json
  | Toml
  | Yaml
  | Plist
deriving DecidableEq

/-- Model of serde_json::Value.  Objects are ordered association lists;
numeric payloads are carried as integers (the merge logic never inspects
numbers, it only traverses objects). -/
inductive JValue : Type where
  | null : JValue
  | bool (b : Bool) : JValue
  | num (n : Int) : JValue
  | str (s : String) : JValue
  | arr (xs : List JValue) : JValue
  | obj (kvs : List (String × JValue)) : JValue
mutual
def JValue.decEq : (a b : JValue) → Decidable (a = b)
  | .null, .null => .isTrue rfl
  | (.bool a1), (.bool a2) => if h : a1 = a2 then .isTrue (by rw [h]) else .isFalse (by intro hc; injection hc; contradiction)
  | (.num a1), (.num a2) => if h : a1 = a2 then .isTrue (by rw [h]) else .isFalse (by intro hc; injection hc; contradiction)
  | (.str a1), (.str a2) => if h : a1 = a2 then .isTrue (by rw [h]) else .isFalse (by intro hc; injection hc; contradiction)
  | (.arr a1), (.arr a2) => match JValue.decEqList a1 a2 with
    | .isTrue h => .isTrue (by rw [h])
    | .isFalse h => .isFalse (by intro hc; injection hc; contradiction)
  | (.obj a1), (.obj a2) => match JValue.decEqKVs a1 a2 with
    | .isTrue h => .isTrue (by rw [h])
    | .isFalse h => .isFalse (by intro hc; injection hc; contradiction)
  | .null, (.bool _) => .isFalse (fun hc => nomatch hc)
  | .null, (.num _) => .isFalse (fun hc => nomatch hc)
  | .null, (.str _) => .isFalse (fun hc => nomatch hc)
  | .null, (.arr _) => .isFalse (fun hc => nomatch hc)
  | .null, (.obj _) => .isFalse (fun hc => nomatch hc)
  | (.bool _), .null => .isFalse (fun hc => nomatch hc)
  | (.bool _), (.num _) => .isFalse (fun hc => nomatch hc)
  | (.bool _), (.str _) => .isFalse (fun hc => nomatch hc)
  | (.bool _), (.arr _) => .isFalse (fun hc => nomatch hc)
  | (.bool _), (.obj _) => .isFalse (fun hc => nomatch hc)
  | (.num _), .null => .isFalse (fun hc => nomatch hc)
  | (.num _), (.bool _) => .isFalse (fun hc => nomatch hc)
  | (.num _), (.str _) => .isFalse (fun hc => nomatch hc)
  | (.num _), (.arr _) => .isFalse (fun hc => nomatch hc)
  | (.num _), (.obj _) => .isFalse (fun hc => nomatch hc)
  | (.str _), .null => .isFalse (fun hc => nomatch hc)
  | (.str _), (.bool _) => .isFalse (fun hc => nomatch hc)
  | (.str _), (.num _) => .isFalse (fun hc => nomatch hc)
  | (.str _), (.arr _) => .isFalse (fun hc => nomatch hc)
  | (.str _), (.obj _) => .isFalse (fun hc => nomatch hc)
  | (.arr _), .null => .isFalse (fun hc => nomatch hc)
  | (.arr _), (.bool _) => .isFalse (fun hc => nomatch hc)
  | (.arr _), (.num _) => .isFalse (fun hc => nomatch hc)
  | (.arr _), (.str _) => .isFalse (fun hc => nomatch hc)
  | (.arr _), (.obj _) => .isFalse (fun hc => nomatch hc)
  | (.obj _), .null => .isFalse (fun hc => nomatch hc)
  | (.obj _), (.bool _) => .isFalse (fun hc => nomatch hc)
  | (.obj _), (.num _) => .isFalse (fun hc => nomatch hc)
  | (.obj _), (.str _) => .isFalse (fun hc => nomatch hc)
  | (.obj _), (.arr _) => .isFalse (fun hc => nomatch hc)
def JValue.decEqList : (a b : List JValue) → Decidable (a = b)
  | [], [] => .isTrue rfl
  | [], _ :: _ => .isFalse (fun hc => nomatch hc)
  | _ :: _, [] => .isFalse (fun hc => nomatch hc)
  | x :: xs, y :: ys =>
    match JValue.decEq x y, JValue.decEqList xs ys with
    | .isTrue h1, .isTrue h2 => .isTrue (by rw [h1, h2])
    | .isFalse h1, _ => .isFalse (by intro hc; injection hc; contradiction)
    | .isTrue _, .isFalse h2 => .isFalse (by intro hc; injection hc; contradiction)
def JValue.decEqKVs : (a b : List (String × JValue)) → Decidable (a = b)
  | [], [] => .isTrue rfl
  | [], _ :: _ => .isFalse (fun hc => nomatch hc)
  | _ :: _, [] => .isFalse (fun hc => nomatch hc)
  | (k1, v1) :: xs, (k2, v2) :: ys =>
    if hk : k1 = k2 then
      (match JValue.decEq v1 v2, JValue.decEqKVs xs ys with
      | .isTrue h1, .isTrue h2 => .isTrue (by rw [hk, h1, h2])
      | .isFalse h1, _ => .isFalse (by intro hc; injection hc with hp ht; injection hp; contradiction)
      | .isTrue _, .isFalse h2 => .isFalse (by intro hc; injection hc; contradiction))
    else .isFalse (by intro hc; injection hc with hp ht; injection hp; contradiction)
end

instance : DecidableEq JValue := JValue.decEq

/-- Model of serde_json Value::get with a string key: a lookup that succeeds
only on objects. -/
def JValue.get? : JValue → String → Option JValue
  | .obj kvs, k => findKV k kvs
  | _, _ => none

/-- Model of serde_json Value indexing v[k], which yields Null when the key
is absent or the value is not an object. -/
def jindex (v : JValue) (k : String) : JValue := (v.get? k).getD JValue.null

/-- Model of toml::Value.  Float and datetime payloads are inert to the
merge logic and are carried as their rendered text. -/
inductive TValue : Type where
  | str (s : String) : TValue
  | int (n : Int) : TValue
  | flt (r : String) : TValue
  | bool (b : Bool) : TValue
  | datetime (s : String) : TValue
  | arr (xs : List TValue) : TValue
  | table (kvs : List (String × TValue)) : TValue
mutual
def TValue.decEq : (a b : TValue) → Decidable (a = b)
  | (.str a1), (.str a2) => if h : a1 = a2 then .isTrue (by rw [h]) else .isFalse (by intro hc; injection hc; contradiction)
  | (.int a1), (.int a2) => if h : a1 = a2 then .isTrue (by rw [h]) else .isFalse (by intro hc; injection hc; contradiction)
  | (.flt a1), (.flt a2) => if h : a1 = a2 then .isTrue (by rw [h]) else .isFalse (by intro hc; injection hc; contradiction)
  | (.bool a1), (.bool a2) => if h : a1 = a2 then .isTrue (by rw [h]) else .isFalse (by intro hc; injection hc; contradiction)
  | (.datetime a1), (.datetime a2) => if h : a1 = a2 then .isTrue (by rw [h]) else .isFalse (by intro hc; injection hc; contradiction)
  | (.arr a1), (.arr a2) => match TValue.decEqList a1 a2 with
    | .isTrue h => .isTrue (by rw [h])
    | .isFalse h => .isFalse (by intro hc; injection hc; contradiction)
  | (.table a1), (.table a2) => match TValue.decEqKVs a1 a2 with
    | .isTrue h => .isTrue (by rw [h])
    | .isFalse h => .isFalse (by intro hc; injection hc; contradiction)
  | (.str _), (.int _) => .isFalse (fun hc => nomatch hc)
  | (.str _), (.flt _) => .isFalse (fun hc => nomatch hc)
  | (.str _), (.bool _) => .isFalse (fun hc => nomatch hc)
  | (.str _), (.datetime _) => .isFalse (fun hc => nomatch hc)
  | (.str _), (.arr _) => .isFalse (fun hc => nomatch hc)
  | (.str _), (.table _) => .isFalse (fun hc => nomatch hc)
  | (.int _), (.str _) => .isFalse (fun hc => nomatch hc)
  | (.int _), (.flt _) => .isFalse (fun hc => nomatch hc)
  | (.int _), (.bool _) => .isFalse (fun hc => nomatch hc)
  | (.int _), (.datetime _) => .isFalse (fun hc => nomatch hc)
  | (.int _), (.arr _) => .isFalse (fun hc => nomatch hc)
  | (.int _), (.table _) => .isFalse (fun hc => nomatch hc)
  | (.flt _), (.str _) => .isFalse (fun hc => nomatch hc)
  | (.flt _), (.int _) => .isFalse (fun hc => nomatch hc)
  | (.flt _), (.bool _) => .isFalse (fun hc => nomatch hc)
  | (.flt _), (.datetime _) => .isFalse (fun hc => nomatch hc)
  | (.flt _), (.arr _) => .isFalse (fun hc => nomatch hc)
  | (.flt _), (.table _) => .isFalse (fun hc => nomatch hc)
  | (.bool _), (.str _) => .isFalse (fun hc => nomatch hc)
  | (.bool _), (.int _) => .isFalse (fun hc => nomatch hc)
  | (.bool _), (.flt _) => .isFalse (fun hc => nomatch hc)
  | (.bool _), (.datetime _) => .isFalse (fun hc => nomatch hc)
  | (.bool _), (.arr _) => .isFalse (fun hc => nomatch hc)
  | (.bool _), (.table _) => .isFalse (fun hc => nomatch hc)
  | (.datetime _), (.str _) => .isFalse (fun hc => nomatch hc)
  | (.datetime _), (.int _) => .isFalse (fun hc => nomatch hc)
  | (.datetime _), (.flt _) => .isFalse (fun hc => nomatch hc)
  | (.datetime _), (.bool _) => .isFalse (fun hc => nomatch hc)
  | (.datetime _), (.arr _) => .isFalse (fun hc => nomatch hc)
  | (.datetime _), (.table _) => .isFalse (fun hc => nomatch hc)
  | (.arr _), (.str _) => .isFalse (fun hc => nomatch hc)
  | (.arr _), (.int _) => .isFalse (fun hc => nomatch hc)
  | (.arr _), (.flt _) => .isFalse (fun hc => nomatch hc)
  | (.arr _), (.bool _) => .isFalse (fun hc => nomatch hc)
  | (.arr _), (.datetime _) => .isFalse (fun hc => nomatch hc)
  | (.arr _), (.table _) => .isFalse (fun hc => nomatch hc)
  | (.table _), (.str _) => .isFalse (fun hc => nomatch hc)
  | (.table _), (.int _) => .isFalse (fun hc => nomatch hc)
  | (.table _), (.flt _) => .isFalse (fun hc => nomatch hc)
  | (.table _), (.bool _) => .isFalse (fun hc => nomatch hc)
  | (.table _), (.datetime _) => .isFalse (fun hc => nomatch hc)
  | (.table _), (.arr _) => .isFalse (fun hc => nomatch hc)
def TValue.decEqList : (a b : List TValue) → Decidable (a = b)
  | [], [] => .isTrue rfl
  | [], _ :: _ => .isFalse (fun hc => nomatch hc)
  | _ :: _, [] => .isFalse (fun hc => nomatch hc)
  | x :: xs, y :: ys =>
    match TValue.decEq x y, TValue.decEqList xs ys with
    | .isTrue h1, .isTrue h2 => .isTrue (by rw [h1, h2])
    | .isFalse h1, _ => .isFalse (by intro hc; injection hc; contradiction)
    | .isTrue _, .isFalse h2 => .isFalse (by intro hc; injection hc; contradiction)
def TValue.decEqKVs : (a b : List (String × TValue)) → Decidable (a = b)
  | [], [] => .isTrue rfl
  | [], _ :: _ => .isFalse (fun hc => nomatch hc)
  | _ :: _, [] => .isFalse (fun hc => nomatch hc)
  | (k1, v1) :: xs, (k2, v2) :: ys =>
    if hk : k1 = k2 then
      (match TValue.decEq v1 v2, TValue.decEqKVs xs ys with
      | .isTrue h1, .isTrue h2 => .isTrue (by rw [hk, h1, h2])
      | .isFalse h1, _ => .isFalse (by intro hc; injection hc with hp ht; injection hp; contradiction)
      | .isTrue _, .isFalse h2 => .isFalse (by intro hc; injection hc; contradiction))
    else .isFalse (by intro hc; injection hc with hp ht; injection hp; contradiction)
end

instance : DecidableEq TValue := TValue.decEq

/-- Model of toml Value indexing v[k].  The source indexes the statically
built template, whose keys are always present; absent keys fall back to an
empty string here (the Rust Index impl would panic). -/
def tindex (v : TValue) (k : String) : TValue :=
  (match v with
    | .table kvs => findKV k kvs
    | _ => none).getD (TValue.str "")

/-- Model of serde_yaml::Value.  Mapping keys are arbitrary values, as in
serde_yaml; numeric payloads are carried as integers. -/
inductive YValue : Type where
  | null : YValue
  | bool (b : Bool) : YValue
  | num (n : Int) : YValue
  | str (s : String) : YValue
  | seq (xs : List YValue) : YValue
  | map (kvs : List (YValue × YValue)) : YValue
  | tagged (tag : String) (v : YValue) : YValue
mutual
def YValue.decEq : (a b : YValue) → Decidable (a = b)
  | .null, .null => .isTrue rfl
  | (.bool a1), (.bool a2) => if h : a1 = a2 then .isTrue (by rw [h]) else .isFalse (by intro hc; injection hc; contradiction)
  | (.num a1), (.num a2) => if h : a1 = a2 then .isTrue (by rw [h]) else .isFalse (by intro hc; injection hc; contradiction)
  | (.str a1), (.str a2) => if h : a1 = a2 then .isTrue (by rw [h]) else .isFalse (by intro hc; injection hc; contradiction)
  | (.seq a1), (.seq a2) => match YValue.decEqList a1 a2 with
    | .isTrue h => .isTrue (by rw [h])
    | .isFalse h => .isFalse (by intro hc; injection hc; contradiction)
  | (.map a1), (.map a2) => match YValue.decEqKVs a1 a2 with
    | .isTrue h => .isTrue (by rw [h])
    | .isFalse h => .isFalse (by intro hc; injection hc; contradiction)
  | (.tagged a1 b1), (.tagged a2 b2) =>
    if hk : a1 = a2 then
      (match YValue.decEq b1 b2 with
      | .isTrue h => .isTrue (by rw [hk, h])
      | .isFalse h => .isFalse (by intro hc; injection hc; contradiction))
    else .isFalse (by intro hc; injection hc; contradiction)
  | .null, (.bool _) => .isFalse (fun hc => nomatch hc)
  | .null, (.num _) => .isFalse (fun hc => nomatch hc)
  | .null, (.str _) => .isFalse (fun hc => nomatch hc)
  | .null, (.seq _) => .isFalse (fun hc => nomatch hc)
  | .null, (.map _) => .isFalse (fun hc => nomatch hc)
  | .null, (.tagged _ _) => .isFalse (fun hc => nomatch hc)
  | (.bool _), .null => .isFalse (fun hc => nomatch hc)
  | (.bool _), (.num _) => .isFalse (fun hc => nomatch hc)
  | (.bool _), (.str _) => .isFalse (fun hc => nomatch hc)
  | (.bool _), (.seq _) => .isFalse (fun hc => nomatch hc)
  | (.bool _), (.map _) => .isFalse (fun hc => nomatch hc)
  | (.bool _), (.tagged _ _) => .isFalse (fun hc => nomatch hc)
  | (.num _), .null => .isFalse (fun hc => nomatch hc)
  | (.num _), (.bool _) => .isFalse (fun hc => nomatch hc)
  | (.num _), (.str _) => .isFalse (fun hc => nomatch hc)
  | (.num _), (.seq _) => .isFalse (fun hc => nomatch hc)
  | (.num _), (.map _) => .isFalse (fun hc => nomatch hc)
  | (.num _), (.tagged _ _) => .isFalse (fun hc => nomatch hc)
  | (.str _), .null => .isFalse (fun hc => nomatch hc)
  | (.str _), (.bool _) => .isFalse (fun hc => nomatch hc)
  | (.str _), (.num _) => .isFalse (fun hc => nomatch hc)
  | (.str _), (.seq _) => .isFalse (fun hc => nomatch hc)
  | (.str _), (.map _) => .isFalse (fun hc => nomatch hc)
  | (.str _), (.tagged _ _) => .isFalse (fun hc => nomatch hc)
  | (.seq _), .null => .isFalse (fun hc => nomatch hc)
  | (.seq _), (.bool _) => .isFalse (fun hc => nomatch hc)
  | (.seq _), (.num _) => .isFalse (fun hc => nomatch hc)
  | (.seq _), (.str _) => .isFalse (fun hc => nomatch hc)
  | (.seq _), (.map _) => .isFalse (fun hc => nomatch hc)
  | (.seq _), (.tagged _ _) => .isFalse (fun hc => nomatch hc)
  | (.map _), .null => .isFalse (fun hc => nomatch hc)
  | (.map _), (.bool _) => .isFalse (fun hc => nomatch hc)
  | (.map _), (.num _) => .isFalse (fun hc => nomatch hc)
  | (.map _), (.str _) => .isFalse (fun hc => nomatch hc)
  | (.map _), (.seq _) => .isFalse (fun hc => nomatch hc)
  | (.map _), (.tagged _ _) => .isFalse (fun hc => nomatch hc)
  | (.tagged _ _), .null => .isFalse (fun hc => nomatch hc)
  | (.tagged _ _), (.bool _) => .isFalse (fun hc => nomatch hc)
  | (.tagged _ _), (.num _) => .isFalse (fun hc => nomatch hc)
  | (.tagged _ _), (.str _) => .isFalse (fun hc => nomatch hc)
  | (.tagged _ _), (.seq _) => .isFalse (fun hc => nomatch hc)
  | (.tagged _ _), (.map _) => .isFalse (fun hc => nomatch hc)
def YValue.decEqList : (a b : List YValue) → Decidable (a = b)
  | [], [] => .isTrue rfl
  | [], _ :: _ => .isFalse (fun hc => nomatch hc)
  | _ :: _, [] => .isFalse (fun hc => nomatch hc)
  | x :: xs, y :: ys =>
    match YValue.decEq x y, YValue.decEqList xs ys with
    | .isTrue h1, .isTrue h2 => .isTrue (by rw [h1, h2])
    | .isFalse h1, _ => .isFalse (by intro hc; injection hc; contradiction)
    | .isTrue _, .isFalse h2 => .isFalse (by intro hc; injection hc; contradiction)
def YValue.decEqKVs : (a b : List (YValue × YValue)) → Decidable (a = b)
  | [], [] => .isTrue rfl
  | [], _ :: _ => .isFalse (fun hc => nomatch hc)
  | _ :: _, [] => .isFalse (fun hc => nomatch hc)
  | (k1, v1) :: xs, (k2, v2) :: ys =>
    match YValue.decEq k1 k2, YValue.decEq v1 v2, YValue.decEqKVs xs ys with
    | .isTrue hk, .isTrue h1, .isTrue h2 => .isTrue (by rw [hk, h1, h2])
    | .isFalse hk, _, _ => .isFalse (by intro hc; injection hc with hp ht; injection hp; contradiction)
    | .isTrue _, .isFalse h1, _ => .isFalse (by intro hc; injection hc with hp ht; injection hp; contradiction)
    | .isTrue _, .isTrue _, .isFalse h2 => .isFalse (by intro hc; injection hc; contradiction)
end

instance : DecidableEq YValue := YValue.decEq

/-- Model of plist::Value (macOS dictionary trees).  Real, date and data
payloads are inert to the merge logic and are carried as rendered text or
byte lists. -/
inductive PValue : Type where
  | str (s : String) : PValue
  | int (n : Int) : PValue
  | real (r : String) : PValue
  | bool (b : Bool) : PValue
  | date (s : String) : PValue
  | data (bytes : List Nat) : PValue
  | arr (xs : List PValue) : PValue
  | dict (kvs : List (String × PValue)) : PValue
mutual
def PValue.decEq : (a b : PValue) → Decidable (a = b)
  | (.str a1), (.str a2) => if h : a1 = a2 then .isTrue (by rw [h]) else .isFalse (by intro hc; injection hc; contradiction)
  | (.int a1), (.int a2) => if h : a1 = a2 then .isTrue (by rw [h]) else .isFalse (by intro hc; injection hc; contradiction)
  | (.real a1), (.real a2) => if h : a1 = a2 then .isTrue (by rw [h]) else .isFalse (by intro hc; injection hc; contradiction)
  | (.bool a1), (.bool a2) => if h : a1 = a2 then .isTrue (by rw [h]) else .isFalse (by intro hc; injection hc; contradiction)
  | (.date a1), (.date a2) => if h : a1 = a2 then .isTrue (by rw [h]) else .isFalse (by intro hc; injection hc; contradiction)
  | (.data a1), (.data a2) => if h : a1 = a2 then .isTrue (by rw [h]) else .isFalse (by intro hc; injection hc; contradiction)
  | (.arr a1), (.arr a2) => match PValue.decEqList a1 a2 with
    | .isTrue h => .isTrue (by rw [h])
    | .isFalse h => .isFalse (by intro hc; injection hc; contradiction)
  | (.dict a1), (.dict a2) => match PValue.decEqKVs a1 a2 with
    | .isTrue h => .isTrue (by rw [h])
    | .isFalse h => .isFalse (by intro hc; injection hc; contradiction)
  | (.str _), (.int _) => .isFalse (fun hc => nomatch hc)
  | (.str _), (.real _) => .isFalse (fun hc => nomatch hc)
  | (.str _), (.bool _) => .isFalse (fun hc => nomatch hc)
  | (.str _), (.date _) => .isFalse (fun hc => nomatch hc)
  | (.str _), (.data _) => .isFalse (fun hc => nomatch hc)
  | (.str _), (.arr _) => .isFalse (fun hc => nomatch hc)
  | (.str _), (.dict _) => .isFalse (fun hc => nomatch hc)
  | (.int _), (.str _) => .isFalse (fun hc => nomatch hc)
  | (.int _), (.real _) => .isFalse (fun hc => nomatch hc)
  | (.int _), (.bool _) => .isFalse (fun hc => nomatch hc)
  | (.int _), (.date _) => .isFalse (fun hc => nomatch hc)
  | (.int _), (.data _) => .isFalse (fun hc => nomatch hc)
  | (.int _), (.arr _) => .isFalse (fun hc => nomatch hc)
  | (.int _), (.dict _) => .isFalse (fun hc => nomatch hc)
  | (.real _), (.str _) => .isFalse (fun hc => nomatch hc)
  | (.real _), (.int _) => .isFalse (fun hc => nomatch hc)
  | (.real _), (.bool _) => .isFalse (fun hc => nomatch hc)
  | (.real _), (.date _) => .isFalse (fun hc => nomatch hc)
  | (.real _), (.data _) => .isFalse (fun hc => nomatch hc)
  | (.real _), (.arr _) => .isFalse (fun hc => nomatch hc)
  | (.real _), (.dict _) => .isFalse (fun hc => nomatch hc)
  | (.bool _), (.str _) => .isFalse (fun hc => nomatch hc)
  | (.bool _), (.int _) => .isFalse (fun hc => nomatch hc)
  | (.bool _), (.real _) => .isFalse (fun hc => nomatch hc)
  | (.bool _), (.date _) => .isFalse (fun hc => nomatch hc)
  | (.bool _), (.data _) => .isFalse (fun hc => nomatch hc)
  | (.bool _), (.arr _) => .isFalse (fun hc => nomatch hc)
  | (.bool _), (.dict _) => .isFalse (fun hc => nomatch hc)
  | (.date _), (.str _) => .isFalse (fun hc => nomatch hc)
  | (.date _), (.int _) => .isFalse (fun hc => nomatch hc)
  | (.date _), (.real _) => .isFalse (fun hc => nomatch hc)
  | (.date _), (.bool _) => .isFalse (fun hc => nomatch hc)
  | (.date _), (.data _) => .isFalse (fun hc => nomatch hc)
  | (.date _), (.arr _) => .isFalse (fun hc => nomatch hc)
  | (.date _), (.dict _) => .isFalse (fun hc => nomatch hc)
  | (.data _), (.str _) => .isFalse (fun hc => nomatch hc)
  | (.data _), (.int _) => .isFalse (fun hc => nomatch hc)
  | (.data _), (.real _) => .isFalse (fun hc => nomatch hc)
  | (.data _), (.bool _) => .isFalse (fun hc => nomatch hc)
  | (.data _), (.date _) => .isFalse (fun hc => nomatch hc)
  | (.data _), (.arr _) => .isFalse (fun hc => nomatch hc)
  | (.data _), (.dict _) => .isFalse (fun hc => nomatch hc)
  | (.arr _), (.str _) => .isFalse (fun hc => nomatch hc)
  | (.arr _), (.int _) => .isFalse (fun hc => nomatch hc)
  | (.arr _), (.real _) => .isFalse (fun hc => nomatch hc)
  | (.arr _), (.bool _) => .isFalse (fun hc => nomatch hc)
  | (.arr _), (.date _) => .isFalse (fun hc => nomatch hc)
  | (.arr _), (.data _) => .isFalse (fun hc => nomatch hc)
  | (.arr _), (.dict _) => .isFalse (fun hc => nomatch hc)
  | (.dict _), (.str _) => .isFalse (fun hc => nomatch hc)
  | (.dict _), (.int _) => .isFalse (fun hc => nomatch hc)
  | (.dict _), (.real _) => .isFalse (fun hc => nomatch hc)
  | (.dict _), (.bool _) => .isFalse (fun hc => nomatch hc)
  | (.dict _), (.date _) => .isFalse (fun hc => nomatch hc)
  | (.dict _), (.data _) => .isFalse (fun hc => nomatch hc)
  | (.dict _), (.arr _) => .isFalse (fun hc => nomatch hc)
def PValue.decEqList : (a b : List PValue) → Decidable (a = b)
  | [], [] => .isTrue rfl
  | [], _ :: _ => .isFalse (fun hc => nomatch hc)
  | _ :: _, [] => .isFalse (fun hc => nomatch hc)
  | x :: xs, y :: ys =>
    match PValue.decEq x y, PValue.decEqList xs ys with
    | .isTrue h1, .isTrue h2 => .isTrue (by rw [h1, h2])
    | .isFalse h1, _ => .isFalse (by intro hc; injection hc; contradiction)
    | .isTrue _, .isFalse h2 => .isFalse (by intro hc; injection hc; contradiction)
def PValue.decEqKVs : (a b : List (String × PValue)) → Decidable (a = b)
  | [], [] => .isTrue rfl
  | [], _ :: _ => .isFalse (fun hc => nomatch hc)
  | _ :: _, [] => .isFalse (fun hc => nomatch hc)
  | (k1, v1) :: xs, (k2, v2) :: ys =>
    if hk : k1 = k2 then
      (match PValue.decEq v1 v2, PValue.decEqKVs xs ys with
      | .isTrue h1, .isTrue h2 => .isTrue (by rw [hk, h1, h2])
      | .isFalse h1, _ => .isFalse (by intro hc; injection hc with hp ht; injection hp; contradiction)
      | .isTrue _, .isFalse h2 => .isFalse (by intro hc; injection hc; contradiction))
    else .isFalse (by intro hc; injection hc with hp ht; injection hp; contradiction)
end

instance : DecidableEq PValue := PValue.decEq


/-- Model of toml Value::get with a string key: a lookup that succeeds only
on tables. -/
def TValue.get? : TValue → String → Option TValue
  | .table kvs, k => findKV k kvs
  | _, _ => none

/-- Model of serde_yaml mapping lookup with a value key: a lookup that
succeeds only on mappings. -/
def YValue.get? : YValue → YValue → Option YValue
  | .map kvs, k => findKV k kvs
  | _, _ => none

/-- Model of plist Dictionary::get with a string key: a lookup that
succeeds only on dictionaries. -/
def PValue.get? : PValue → String → Option PValue
  | .dict kvs, k => findKV k kvs
  | _, _ => none

/-- The pre-built template record held by ConfigMerger
(struct KodegenConfig, src/config.rs lines 17-24). -/
structure KodegenConfig : Type where
  json : JValue
  toml : TValue
  yaml : YValue
  plist : PValue

/-- The canonical templates built once in ConfigMerger::new
(src/config.rs lines 30-100).  The json, yaml and plist templates carry an
empty env mapping; the toml template carries only command and args.  The
yaml field is the parse of the literal template string in the source. -/
def kodegen_config : KodegenConfig where
  json := JValue.obj [("mcpServers", JValue.obj [("kodegen", JValue.obj
    [("command", JValue.str "kodegen"),
     ("args", JValue.arr [JValue.str "--stdio"]),
     ("env", JValue.obj [])])])]
  toml := TValue.table [("mcpServers", TValue.table [("kodegen", TValue.table
    [("command", TValue.str "kodegen"),
     ("args", TValue.arr [TValue.str "--stdio"])])])]
  yaml := YValue.map [(YValue.str "mcpServers", YValue.map [(YValue.str "kodegen", YValue.map
    [(YValue.str "command", YValue.str "kodegen"),
     (YValue.str "args", YValue.seq [YValue.str "--stdio"]),
     (YValue.str "env", YValue.map [])])])]
  plist := PValue.dict [("mcpServers", PValue.dict [("kodegen", PValue.dict
    [("command", PValue.str "kodegen"),
     ("args", PValue.arr [PValue.str "--stdio"]),
     ("env", PValue.dict [])])])]

/-- The json service entry cloned into target documents:
kodegen_config.json indexed at mcpServers and then kodegen
(src/config.rs line 142). -/
def kodegenEntryJson : JValue := jindex (jindex kodegen_config.json "mcpServers") "kodegen"

/-- The toml service entry cloned into target documents
(src/config.rs line 179). -/
def kodegenEntryToml : TValue := tindex (tindex kodegen_config.toml "mcpServers") "kodegen"

/-- Fast-path check of merge_json (src/config.rs lines 127-128):
config.get of mcpServers followed by get of kodegen is some. -/
def configured_json (config : JValue) : Bool :=
  ((config.get? "mcpServers").bind (fun s => JValue.get? s "kodegen")).isSome

/-- Slow-path mutation of merge_json (src/config.rs lines 134-145): on an
object, ensure the mcpServers key exists, then, when its value is an
object, insert the kodegen template entry.  Non-objects are untouched. -/
def insert_kodegen_json (config : JValue) : JValue :=
  match config with
  | .obj kvs =>
    let kvs1 := if (findKV "mcpServers" kvs).isSome then kvs
                else kvs ++ [("mcpServers", JValue.obj [])]
    let kvs2 := match findKV "mcpServers" kvs1 with
      | some (.obj servers) =>
          setKV "mcpServers" (JValue.obj (setKV "kodegen" kodegenEntryJson servers)) kvs1
      | _ => kvs1
    JValue.obj kvs2
  | other => other

/-- ConfigMerger::merge_json (src/config.rs lines 119-148), parameterized by
the external serde_json parse and pretty-print functions.  Blank input is
treated as an empty object; a parse error propagates unchanged. -/
def merge_json (parse : String → Except String JValue)
    (pretty : JValue → Except String String) (existing : String) : Except String String :=
  match (if isBlank existing then Except.ok (JValue.obj []) else parse existing) with
  | .error e => .error e
  | .ok config =>
    if configured_json config then .ok existing
    else pretty (insert_kodegen_json config)

/-- Fast-path check of merge_toml (src/config.rs lines 160-163):
the document is a table whose mcpServers value is a table containing the
kodegen key. -/
def configured_toml (config : TValue) : Bool :=
  match config with
  | .table kvs =>
    match findKV "mcpServers" kvs with
    | some (.table servers) => (findKV "kodegen" servers).isSome
    | _ => false
  | _ => false

/-- Slow-path mutation of merge_toml (src/config.rs lines 168-182). -/
def insert_kodegen_toml (config : TValue) : TValue :=
  match config with
  | .table kvs =>
    let kvs1 := if (findKV "mcpServers" kvs).isSome then kvs
                else kvs ++ [("mcpServers", TValue.table [])]
    let kvs2 := match findKV "mcpServers" kvs1 with
      | some (.table servers) =>
          setKV "mcpServers" (TValue.table (setKV "kodegen" kodegenEntryToml servers)) kvs1
      | _ => kvs1
    TValue.table kvs2
  | other => other

/-- ConfigMerger::merge_toml (src/config.rs lines 152-185). -/
def merge_toml (parse : String → Except String TValue)
    (pretty : TValue → Except String String) (existing : String) : Except String String :=
  match (if isBlank existing then Except.ok (TValue.table []) else parse existing) with
  | .error e => .error e
  | .ok config =>
    if configured_toml config then .ok existing
    else pretty (insert_kodegen_toml config)

/-- Fast-path check of merge_yaml (src/config.rs lines 198-202):
the document is a mapping whose mcpServers value is a mapping containing
the kodegen key.  Keys are compared as YAML string values. -/
def configured_yaml (config : YValue) : Bool :=
  match config with
  | .map m =>
    match findKV (YValue.str "mcpServers") m with
    | some (.map servers) => (findKV (YValue.str "kodegen") servers).isSome
    | _ => false
  | _ => false

/-- Slow-path mutation of merge_yaml (src/config.rs lines 207-228): the
kodegen entry is extracted from the yaml template by destructuring it as a
mapping and looking up mcpServers and then kodegen, exactly as the nested
if-let chain in the source does. -/
def insert_kodegen_yaml (config : YValue) : YValue :=
  match config with
  | .map m =>
    let m1 := if (findKV (YValue.str "mcpServers") m).isSome then m
              else m ++ [(YValue.str "mcpServers", YValue.map [])]
    let m2 := match findKV (YValue.str "mcpServers") m1, kodegen_config.yaml with
      | some (.map servers), .map templateRoot =>
        match findKV (YValue.str "mcpServers") templateRoot with
        | some (.map templateServers) =>
          match findKV (YValue.str "kodegen") templateServers with
          | some kodegenEntry =>
              setKV (YValue.str "mcpServers")
                (YValue.map (setKV (YValue.str "kodegen") kodegenEntry servers)) m1
          | none => m1
        | _ => m1
      | _, _ => m1
    YValue.map m2
  | other => other

/-- ConfigMerger::merge_yaml (src/config.rs lines 189-231).  Parse and
serialize failures are wrapped with the anyhow messages of the source. -/
def merge_yaml (parse : String → Except String YValue)
    (pretty : YValue → Except String String) (existing : String) : Except String String :=
  match (if isBlank existing then Except.ok (YValue.map [])
         else (parse existing).mapError (fun e => "Failed to parse existing YAML: " ++ e)) with
  | .error e => .error e
  | .ok config =>
    if configured_yaml config then .ok existing
    else
      match pretty (insert_kodegen_yaml config) with
      | .ok s => .ok s
      | .error e => .error ("Failed to serialize YAML: " ++ e)

/-- Fast-path check of the macOS merge_plist (src/config.rs lines 247-250). -/
def configured_plist (config : PValue) : Bool :=
  match config with
  | .dict kvs =>
    match findKV "mcpServers" kvs with
    | some (.dict servers) => (findKV "kodegen" servers).isSome
    | _ => false
  | _ => false

/-- Slow-path mutation of the macOS merge_plist
(src/config.rs lines 255-272), extracting the template entry by
destructuring as in the source. -/
def insert_kodegen_plist (config : PValue) : PValue :=
  match config with
  | .dict kvs =>
    let kvs1 := if (findKV "mcpServers" kvs).isSome then kvs
                else kvs ++ [("mcpServers", PValue.dict [])]
    let kvs2 := match findKV "mcpServers" kvs1, kodegen_config.plist with
      | some (.dict servers), .dict templateRoot =>
        match findKV "mcpServers" templateRoot with
        | some (.dict templateServers) =>
          match findKV "kodegen" templateServers with
          | some entry => setKV "mcpServers" (PValue.dict (setKV "kodegen" entry servers)) kvs1
          | none => kvs1
        | _ => kvs1
      | _, _ => kvs1
    PValue.dict kvs2
  | other => other

/-- ConfigMerger::merge_plist in the macOS build
(src/config.rs lines 236-279).  Parse and serialize failures are wrapped
with the anyhow context messages of the source. -/
def merge_plist_macos (parse : String → Except String PValue)
    (pretty : PValue → Except String String) (existing : String) : Except String String :=
  match (if isBlank existing then Except.ok (PValue.dict [])
         else (parse existing).mapError (fun e => "Failed to parse existing plist: " ++ e)) with
  | .error e => .error e
  | .ok config =>
    if configured_plist config then .ok existing
    else
      match pretty (insert_kodegen_plist config) with
      | .ok s => .ok s
      | .error e => .error ("Failed to serialize plist: " ++ e)

/-- ConfigMerger::merge_plist in the non-macOS build
(src/config.rs lines 284-286): an unconditional hard failure. -/
def merge_plist_other (_existing : String) : Except String String :=
  Except.error "Plist format only supported on macOS"

/-- The external parse and serialize pairs of the four serialization
libraries, as used by ConfigMerger.  These are dependencies of the crate,
not code of it, so they enter the model as parameters. -/
structure SerdeLibs : Type where
  jsonParse : String → Except String JValue
  jsonPretty : JValue → Except String String
  tomlParse : String → Except String TValue
  tomlPretty : TValue → Except String String
  yamlParse : String → Except String YValue
  yamlPretty : YValue → Except String String
  plistParse : String → Except String PValue
  plistPretty : PValue → Except String String

/-- ConfigMerger::merge (src/config.rs lines 108-115).  The macos flag
models the compile-time cfg(target_os) selection between the two
merge_plist implementations. -/
def ConfigMerger.merge (L : SerdeLibs) (macos : Bool) (existing : String) :
    ConfigFormat → Except String String
  | .Json => merge_json L.jsonParse L.jsonPretty existing
  | .Toml => merge_toml L.tomlParse L.tomlPretty existing
  | .Yaml => merge_yaml L.yamlParse L.yamlPretty existing
  | .Plist =>
    if macos then merge_plist_macos L.plistParse L.plistPretty existing
    else merge_plist_other existing

/-- Boolean success test on a merge result. -/
def isOkE (e : Except String String) : Bool :=
  match e with
  | .ok _ => true
  | .error _ => false

/-- The Zed service entry injected by ZedPlugin::inject_kodegen
(src/clients/zed.rs lines 116-120): the alternate source, command, args
shape under the context_servers key, with no env field. -/
def zed_entry : JValue := JValue.obj
  [("source", JValue.str "custom"),
   ("command", JValue.str "kodegen"),
   ("args", JValue.arr [JValue.str "--stdio"])]

/-- ZedPlugin::inject_kodegen (src/clients/zed.rs lines 87-126),
parameterized by the external serde_json parse and pretty-print pair.  The
format argument is received but never consulted, exactly as the underscore
binding in the source: the content is always handled as JSON.  Parse and
serialize failures are wrapped with the anyhow context messages of the
source. -/
def ZedPlugin.inject_kodegen (parse : String → Except String JValue)
    (pretty : JValue → Except String String)
    (config_content : String) (_format : ConfigFormat) : Except String String :=
  match (if isBlank config_content then Except.ok (JValue.obj [])
         else (parse config_content).mapError (fun e => "Failed to parse Zed config: " ++ e)) with
  | .error e => .error e
  | .ok config =>
    if ((config.get? "context_servers").bind (fun s => JValue.get? s "kodegen")).isSome then
      .ok config_content
    else
      let merged : JValue :=
        match config with
        | .obj kvs =>
          let kvs1 := if (findKV "context_servers" kvs).isSome then kvs
                      else kvs ++ [("context_servers", JValue.obj [])]
          let kvs2 := match findKV "context_servers" kvs1 with
            | some (.obj servers) =>
                setKV "context_servers" (JValue.obj (setKV "kodegen" zed_entry servers)) kvs1
            | _ => kvs1
          JValue.obj kvs2
        | other => other
      (pretty merged).mapError (fun e => "Failed to serialize Zed config: " ++ e)

/-- Filesystem side effects performed by the orchestrator while processing
one candidate config path, in order of execution. -/
inductive FsOp : Type where
  | createDirAll (dir : String) : FsOp
  | writeFile (path : String) (contents : String) : FsOp
  | copyFile (src dst : String) : FsOp
deriving DecidableEq

/-- The backup path used by process_config_file
(src/install.rs lines 117-125): the original file name with the fixed
.backup suffix appended. -/
def backup_path (path : String) : String := path ++ ".backup"

/-- process_config_file (src/install.rs lines 87-137), with the plugin's
injection function (already specialised to the client's config format, as
in the call client.inject_kodegen(content, client.config_format())), the
pre-state of the filesystem as a read oracle (none models the NotFound
error kind), and the parent-directory function as parameters.  The result
carries the status message together with the trace of filesystem
mutations, in execution order. -/
def process_config_file (inject : String → Except String String)
    (readFile : String → Option String) (parentOf : String → Option String)
    (path : String) : Except String (String × List FsOp) :=
  match readFile path with
  | none =>
    match inject "\x7b\x7d" with
    | .error e => .error e
    | .ok newConfig =>
      let dirOps := match parentOf path with
        | some parent => [FsOp.createDirAll parent]
        | none => []
      .ok ("Created new config", dirOps ++ [FsOp.writeFile path newConfig])
  | some content =>
    if strContains content "kodegen" then
      .ok ("Already configured", [])
    else
      match inject content with
      | .error e => .error e
      | .ok updated =>
        .ok ("Configured successfully",
          [FsOp.copyFile path (backup_path path), FsOp.writeFile path updated])

/-- Semantic projection of a service registration entry: its command
string, its argument strings and, when an env mapping is present, the list
of env keys.  A missing or differently shaped field projects to none. -/
structure SemReg : Type where
  command : Option String
  args : Option (List String)
  envKeys : Option (List String)
deriving DecidableEq

/-- Extraction of the string elements of a JSON array, failing when a
non-string element occurs. -/
def jsonStrList : List JValue → Option (List String)
  | [] => some []
  | .str s :: rest => (jsonStrList rest).map (fun l => s :: l)
  | _ => none

/-- Semantic projection of a JSON service entry. -/
def jsonSemOf (v : JValue) : SemReg where
  command := match v.get? "command" with
    | some (.str s) => some s
    | _ => none
  args := match v.get? "args" with
    | some (.arr xs) => jsonStrList xs
    | _ => none
  envKeys := match v.get? "env" with
    | some (.obj kvs) => some (kvs.map Prod.fst)
    | _ => none

/-- Extraction of the string elements of a TOML array. -/
def tomlStrList : List TValue → Option (List String)
  | [] => some []
  | .str s :: rest => (tomlStrList rest).map (fun l => s :: l)
  | _ => none

/-- Semantic projection of a TOML service entry. -/
def tomlSemOf (v : TValue) : SemReg where
  command := match v with
    | .table kvs => match findKV "command" kvs with
      | some (.str s) => some s
      | _ => none
    | _ => none
  args := match v with
    | .table kvs => match findKV "args" kvs with
      | some (.arr xs) => tomlStrList xs
      | _ => none
    | _ => none
  envKeys := match v with
    | .table kvs => match findKV "env" kvs with
      | some (.table evs) => some (evs.map Prod.fst)
      | _ => none
    | _ => none

/-- Extraction of the string elements of a YAML sequence. -/
def yamlStrList : List YValue → Option (List String)
  | [] => some []
  | .str s :: rest => (yamlStrList rest).map (fun l => s :: l)
  | _ => none

/-- Extraction of the string keys of a YAML mapping, failing when a
non-string key occurs. -/
def yamlStrKeys : List (YValue × YValue) → Option (List String)
  | [] => some []
  | (.str k, _) :: rest => (yamlStrKeys rest).map (fun l => k :: l)
  | _ => none

/-- Semantic projection of a YAML service entry. -/
def yamlSemOf (v : YValue) : SemReg where
  command := match v with
    | .map kvs => match findKV (YValue.str "command") kvs with
      | some (.str s) => some s
      | _ => none
    | _ => none
  args := match v with
    | .map kvs => match findKV (YValue.str "args") kvs with
      | some (.seq xs) => yamlStrList xs
      | _ => none
    | _ => none
  envKeys := match v with
    | .map kvs => match findKV (YValue.str "env") kvs with
      | some (.map evs) => yamlStrKeys evs
      | _ => none
    | _ => none


/-- The yaml service entry that the template destructuring in merge_yaml
extracts and clones (the kodegen mapping of the parsed template literal,
src/config.rs lines 59-71 and 215-227). -/
def kodegenEntryYaml : YValue := YValue.map
  [(YValue.str "command", YValue.str "kodegen"),
   (YValue.str "args", YValue.seq [YValue.str "--stdio"]),
   (YValue.str "env", YValue.map [])]

/-- The plist service entry that the template destructuring in the macOS
merge_plist extracts and clones (src/config.rs lines 76-95 and 264-271). -/
def kodegenEntryPlist : PValue := PValue.dict
  [("command", PValue.str "kodegen"),
   ("args", PValue.arr [PValue.str "--stdio"]),
   ("env", PValue.dict [])]

/-- The document value produced by a successful json merge of an object
document: unchanged on the fast path, the slow-path insertion otherwise. -/
def merge_result_json (kvs : List (String × JValue)) : JValue :=
  if configured_json (JValue.obj kvs) then JValue.obj kvs
  else insert_kodegen_json (JValue.obj kvs)

/-- The document value produced by a successful toml merge of a table
document. -/
def merge_result_toml (kvs : List (String × TValue)) : TValue :=
  if configured_toml (TValue.table kvs) then TValue.table kvs
  else insert_kodegen_toml (TValue.table kvs)

/-- The document value produced by a successful yaml merge of a mapping
document. -/
def merge_result_yaml (m : List (YValue × YValue)) : YValue :=
  if configured_yaml (YValue.map m) then YValue.map m
  else insert_kodegen_yaml (YValue.map m)

/-- The document value produced by a successful macOS plist merge of a
dictionary document. -/
def merge_result_plist (kvs : List (String × PValue)) : PValue :=
  if configured_plist (PValue.dict kvs) then PValue.dict kvs
  else insert_kodegen_plist (PValue.dict kvs)

/-- A json document value that already carries a kodegen registration whose
payload differs from the canonical template. -/
def preCfgJ : JValue := JValue.obj
  [("mcpServers", JValue.obj [("kodegen", JValue.str "evil")])]

/-- Top-level bindings of a configured json document with unrelated sibling
keys, used to evaluate merge behaviour on a concrete input. -/
def cfgJKvs : List (String × JValue) :=
  [("keep", JValue.num 1),
   ("mcpServers", JValue.obj [("kodegen", JValue.str "x"), ("other", JValue.str "y")])]

/-- A configured json document value with unrelated sibling keys, used to
evaluate the fast path on a concrete input. -/
def cfgJ : JValue := JValue.obj cfgJKvs

/-- Top-level bindings of a configured toml document. -/
def cfgTKvs : List (String × TValue) :=
  [("keep", TValue.int 1),
   ("mcpServers", TValue.table [("kodegen", TValue.str "x"), ("other", TValue.str "y")])]

/-- A configured toml document value with unrelated sibling keys. -/
def cfgT : TValue := TValue.table cfgTKvs

/-- Top-level bindings of a configured yaml document. -/
def cfgYKvs : List (YValue × YValue) :=
  [(YValue.str "keep", YValue.num 1),
   (YValue.str "mcpServers", YValue.map
     [(YValue.str "kodegen", YValue.str "x"), (YValue.str "other", YValue.str "y")])]

/-- A configured yaml document value with unrelated sibling keys. -/
def cfgY : YValue := YValue.map cfgYKvs

/-- Top-level bindings of a configured plist document. -/
def cfgPKvs : List (String × PValue) :=
  [("keep", PValue.int 1),
   ("mcpServers", PValue.dict [("kodegen", PValue.str "x"), ("other", PValue.str "y")])]

/-- A configured plist document value with unrelated sibling keys. -/
def cfgP : PValue := PValue.dict cfgPKvs

/-- Top-level bindings of an unconfigured json document with one unrelated
key. -/
def slowJKvs : List (String × JValue) := [("keep", JValue.str "b")]

/-- An unconfigured json document value with one unrelated key. -/
def slowJ : JValue := JValue.obj slowJKvs

/-- Top-level bindings of an unconfigured toml document. -/
def slowTKvs : List (String × TValue) := [("keep", TValue.str "b")]

/-- An unconfigured toml document value with one unrelated key. -/
def slowT : TValue := TValue.table slowTKvs

/-- Top-level bindings of an unconfigured yaml document. -/
def slowYKvs : List (YValue × YValue) := [(YValue.str "keep", YValue.str "b")]

/-- An unconfigured yaml document value with one unrelated key. -/
def slowY : YValue := YValue.map slowYKvs

/-- Top-level bindings of an unconfigured plist document. -/
def slowPKvs : List (String × PValue) := [("keep", PValue.str "b")]

/-- An unconfigured plist document value with one unrelated key. -/
def slowP : PValue := PValue.dict slowPKvs

/-- A library bundle on which every parse and every serialization fails,
used to evaluate error propagation on concrete inputs. -/
def errLibs : SerdeLibs where
  jsonParse := fun _ => Except.error "parse error"
  jsonPretty := fun _ => Except.error "ser error"
  tomlParse := fun _ => Except.error "parse error"
  tomlPretty := fun _ => Except.error "ser error"
  yamlParse := fun _ => Except.error "parse error"
  yamlPretty := fun _ => Except.error "ser error"
  plistParse := fun _ => Except.error "parse error"
  plistPretty := fun _ => Except.error "ser error"

/-- A library bundle whose serializers always succeed, used to evaluate the
blank-input slow path on concrete inputs. -/
def okLibs : SerdeLibs :=
  { errLibs with
    jsonPretty := fun _ => Except.ok "S"
    tomlPretty := fun _ => Except.ok "S"
    yamlPretty := fun _ => Except.ok "S"
    plistPretty := fun _ => Except.ok "S" }

/-- A library bundle that parses the document named D to an
already-configured value for every format, used to evaluate the fast path
on concrete inputs. -/
def cfgLibs : SerdeLibs :=
  { errLibs with
    jsonParse := fun s => if s = "D" then Except.ok cfgJ else Except.error "parse error"
    tomlParse := fun s => if s = "D" then Except.ok cfgT else Except.error "parse error"
    yamlParse := fun s => if s = "D" then Except.ok cfgY else Except.error "parse error"
    plistParse := fun s => if s = "D" then Except.ok cfgP else Except.error "parse error" }

/-- A library bundle that parses D to an unconfigured value and serializes
exactly the corresponding merged value to the document named OUT, with the
round-trip equation holding by construction; used to evaluate the slow path
on concrete inputs. -/
def slowLibs : SerdeLibs where
  jsonParse := fun s =>
    if s = "D" then Except.ok slowJ
    else if s = "OUT" then Except.ok (insert_kodegen_json slowJ)
    else Except.error "parse error"
  jsonPretty := fun v =>
    if v = insert_kodegen_json slowJ then Except.ok "OUT" else Except.error "ser error"
  tomlParse := fun s =>
    if s = "D" then Except.ok slowT
    else if s = "OUT" then Except.ok (insert_kodegen_toml slowT)
    else Except.error "parse error"
  tomlPretty := fun v =>
    if v = insert_kodegen_toml slowT then Except.ok "OUT" else Except.error "ser error"
  yamlParse := fun s =>
    if s = "D" then Except.ok slowY
    else if s = "OUT" then Except.ok (insert_kodegen_yaml slowY)
    else Except.error "parse error"
  yamlPretty := fun v =>
    if v = insert_kodegen_yaml slowY then Except.ok "OUT" else Except.error "ser error"
  plistParse := fun s =>
    if s = "D" then Except.ok slowP
    else if s = "OUT" then Except.ok (insert_kodegen_plist slowP)
    else Except.error "parse error"
  plistPretty := fun v =>
    if v = insert_kodegen_plist slowP then Except.ok "OUT" else Except.error "ser error"

/-- A library bundle that parses D to an unconfigured value while every
serialization fails, used to evaluate serialization-failure propagation on
concrete inputs. -/
def serFailLibs : SerdeLibs :=
  { errLibs with
    jsonParse := fun s => if s = "D" then Except.ok slowJ else Except.error "parse error"
    tomlParse := fun s => if s = "D" then Except.ok slowT else Except.error "parse error"
    yamlParse := fun s => if s = "D" then Except.ok slowY else Except.error "parse error"
    plistParse := fun s => if s = "D" then Except.ok slowP else Except.error "parse error" }

/-- A library bundle that parses the document named PRE to a value already
carrying a kodegen registration with a non-canonical payload. -/
def c1Libs : SerdeLibs :=
  { errLibs with
    jsonParse := fun s => if s = "PRE" then Except.ok preCfgJ else Except.error "parse error" }


/-- Decidable equality for Except results, used to evaluate merge results
on concrete inputs. -/
def exceptDecEq {e a : Type} [DecidableEq e] [DecidableEq a] :
    (x y : Except e a) → Decidable (x = y)
  | .ok x, .ok y =>
    if h : x = y then .isTrue (by rw [h])
    else .isFalse (by intro hc; injection hc; contradiction)
  | .error x, .error y =>
    if h : x = y then .isTrue (by rw [h])
    else .isFalse (by intro hc; injection hc; contradiction)
  | .ok _, .error _ => .isFalse (fun hc => nomatch hc)
  | .error _, .ok _ => .isFalse (fun hc => nomatch hc)

instance {e a : Type} [DecidableEq e] [DecidableEq a] : DecidableEq (Except e a) :=
  exceptDecEq


theorem findKV_setKV_self {κ α : Type} [DecidableEq κ] (k : κ) (v : α) (l : List (κ × α)) :
    findKV k (setKV k v l) = some v := by
  induction l with
  | nil => simp [setKV, findKV]
  | cons hd tl ih =>
    obtain ⟨a, b⟩ := hd
    by_cases ha : a = k
    · simp [setKV, findKV, ha]
    · simp [setKV, findKV, ha, ih]

theorem findKV_setKV_ne {κ α : Type} [DecidableEq κ] {k k' : κ} (v : α) (l : List (κ × α))
    (h : k' ≠ k) : findKV k' (setKV k v l) = findKV k' l := by
  have hks : ¬ (k = k') := fun hh => h hh.symm
  induction l with
  | nil => simp [setKV, findKV, hks]
  | cons hd tl ih =>
    obtain ⟨a, b⟩ := hd
    by_cases ha : a = k
    · subst ha
      simp [setKV, findKV, hks]
    · simp [setKV, findKV, ha, ih]

theorem findKV_append_self {κ α : Type} [DecidableEq κ] {k : κ} (v : α) {l : List (κ × α)}
    (h : findKV k l = none) : findKV k (l ++ [(k, v)]) = some v := by
  induction l with
  | nil => simp [findKV]
  | cons hd tl ih =>
    obtain ⟨a, b⟩ := hd
    by_cases ha : a = k
    · simp [findKV, ha] at h
    · simp [findKV, ha] at h ⊢
      exact ih h

theorem findKV_append_ne {κ α : Type} [DecidableEq κ] {k k' : κ} (v : α) (l : List (κ × α))
    (h : k' ≠ k) : findKV k' (l ++ [(k, v)]) = findKV k' l := by
  have hks : ¬ (k = k') := fun hh => h hh.symm
  induction l with
  | nil => simp [findKV, hks]
  | cons hd tl ih =>
    obtain ⟨a, b⟩ := hd
    by_cases ha : a = k'
    · simp [findKV, ha]
    · simp [findKV, ha, ih]

theorem findKV_singleton {κ α : Type} [DecidableEq κ] (k : κ) (v : α) :
    findKV k [(k, v)] = some v := by
  simp [findKV]

theorem insert_json_none (kvs : List (String × JValue))
    (hm : findKV "mcpServers" kvs = none) :
    insert_kodegen_json (JValue.obj kvs) =
      JValue.obj (setKV "mcpServers" (JValue.obj [("kodegen", kodegenEntryJson)])
        (kvs ++ [("mcpServers", JValue.obj [])])) := by
  have h1 : findKV "mcpServers" (kvs ++ [("mcpServers", JValue.obj [])]) =
      some (JValue.obj []) := findKV_append_self _ hm
  simp [insert_kodegen_json, hm, h1, setKV]

theorem insert_json_obj (kvs servers : List (String × JValue))
    (hm : findKV "mcpServers" kvs = some (JValue.obj servers)) :
    insert_kodegen_json (JValue.obj kvs) =
      JValue.obj (setKV "mcpServers"
        (JValue.obj (setKV "kodegen" kodegenEntryJson servers)) kvs) := by
  simp [insert_kodegen_json, hm]

theorem insert_json_bad (kvs : List (String × JValue)) (v : JValue)
    (hm : findKV "mcpServers" kvs = some v) (hv : ∀ s, v ≠ JValue.obj s) :
    insert_kodegen_json (JValue.obj kvs) = JValue.obj kvs := by
  cases v with
  | obj s => exact absurd rfl (hv s)
  | null => simp [insert_kodegen_json, hm]
  | bool b => simp [insert_kodegen_json, hm]
  | num n => simp [insert_kodegen_json, hm]
  | str s => simp [insert_kodegen_json, hm]
  | arr xs => simp [insert_kodegen_json, hm]

theorem configured_json_insert (kvs : List (String × JValue))
    (h : findKV "mcpServers" kvs = none ∨
         ∃ s, findKV "mcpServers" kvs = some (JValue.obj s)) :
    configured_json (insert_kodegen_json (JValue.obj kvs)) = true := by
  rcases h with hm | ⟨s, hm⟩
  · rw [insert_json_none kvs hm]
    simp [configured_json, JValue.get?, findKV_setKV_self, findKV_singleton]
  · rw [insert_json_obj kvs s hm]
    simp [configured_json, JValue.get?, findKV_setKV_self]

theorem insert_json_fix (c : JValue)
    (h : configured_json (insert_kodegen_json c) = false) :
    insert_kodegen_json (insert_kodegen_json c) = insert_kodegen_json c := by
  cases c with
  | obj kvs =>
    rcases hm : findKV "mcpServers" kvs with _ | v
    · rw [configured_json_insert kvs (Or.inl hm)] at h
      exact absurd h (by simp)
    · cases v with
      | obj s =>
        rw [configured_json_insert kvs (Or.inr ⟨s, hm⟩)] at h
        exact absurd h (by simp)
      | null =>
        have hbad := insert_json_bad kvs _ hm (fun s hs => nomatch hs)
        rw [hbad, hbad]
      | bool b =>
        have hbad := insert_json_bad kvs _ hm (fun s hs => nomatch hs)
        rw [hbad, hbad]
      | num n =>
        have hbad := insert_json_bad kvs _ hm (fun s hs => nomatch hs)
        rw [hbad, hbad]
      | str s =>
        have hbad := insert_json_bad kvs _ hm (fun s hs => nomatch hs)
        rw [hbad, hbad]
      | arr xs =>
        have hbad := insert_json_bad kvs _ hm (fun s hs => nomatch hs)
        rw [hbad, hbad]
  | null => rfl
  | bool b => rfl
  | num n => rfl
  | str s => rfl
  | arr xs => rfl

theorem merge_json_idem (p : String → Except String JValue)
    (q : JValue → Except String String) (doc out : String)
    (hrt : ∀ v s, q v = Except.ok s → p s = Except.ok v)
    (hne : isBlank out = false)
    (h : merge_json p q doc = Except.ok out) :
    merge_json p q out = Except.ok out := by
  by_cases hb : isBlank doc = true
  · rw [merge_json] at h
    simp only [hb, if_true] at h
    have hc0 : configured_json (JValue.obj []) = false := by decide
    simp only [hc0, Bool.false_eq_true, if_false] at h
    have hp2 := hrt _ _ h
    have hw : configured_json (insert_kodegen_json (JValue.obj [])) = true := by decide
    rw [merge_json]
    simp [hne, hp2, hw]
  · rw [merge_json] at h
    simp only [hb, if_false] at h
    cases hp : p doc with
    | error e => rw [hp] at h; simp at h
    | ok config =>
      rw [hp] at h
      by_cases hcfg : configured_json config = true
      · simp [hcfg] at h
        have hdo : doc = out := by simpa using h
        subst hdo
        rw [merge_json]
        simp [hb, hp, hcfg]
      · simp [hcfg] at h
        have hp2 := hrt _ _ h
        rw [merge_json]
        by_cases hw : configured_json (insert_kodegen_json config) = true
        · simp [hne, hp2, hw]
        · have hfix := insert_json_fix config (by simpa using hw)
          simp [hne, hp2, hw, hfix, h]

theorem insert_toml_none (kvs : List (String × TValue))
    (hm : findKV "mcpServers" kvs = none) :
    insert_kodegen_toml (TValue.table kvs) =
      TValue.table (setKV "mcpServers" (TValue.table [("kodegen", kodegenEntryToml)])
        (kvs ++ [("mcpServers", TValue.table [])])) := by
  have h1 : findKV "mcpServers" (kvs ++ [("mcpServers", TValue.table [])]) =
      some (TValue.table []) := findKV_append_self _ hm
  simp [insert_kodegen_toml, hm, h1, setKV]

theorem insert_toml_table (kvs servers : List (String × TValue))
    (hm : findKV "mcpServers" kvs = some (TValue.table servers)) :
    insert_kodegen_toml (TValue.table kvs) =
      TValue.table (setKV "mcpServers"
        (TValue.table (setKV "kodegen" kodegenEntryToml servers)) kvs) := by
  simp [insert_kodegen_toml, hm]

theorem insert_toml_bad (kvs : List (String × TValue)) (v : TValue)
    (hm : findKV "mcpServers" kvs = some v) (hv : ∀ s, v ≠ TValue.table s) :
    insert_kodegen_toml (TValue.table kvs) = TValue.table kvs := by
  cases v with
  | table s => exact absurd rfl (hv s)
  | str s => simp [insert_kodegen_toml, hm]
  | int n => simp [insert_kodegen_toml, hm]
  | flt r => simp [insert_kodegen_toml, hm]
  | bool b => simp [insert_kodegen_toml, hm]
  | datetime s => simp [insert_kodegen_toml, hm]
  | arr xs => simp [insert_kodegen_toml, hm]

theorem configured_toml_insert (kvs : List (String × TValue))
    (h : findKV "mcpServers" kvs = none ∨
         ∃ s, findKV "mcpServers" kvs = some (TValue.table s)) :
    configured_toml (insert_kodegen_toml (TValue.table kvs)) = true := by
  rcases h with hm | ⟨s, hm⟩
  · rw [insert_toml_none kvs hm]
    simp [configured_toml, findKV_setKV_self, findKV_singleton]
  · rw [insert_toml_table kvs s hm]
    simp [configured_toml, findKV_setKV_self]

theorem insert_toml_fix (c : TValue)
    (h : configured_toml (insert_kodegen_toml c) = false) :
    insert_kodegen_toml (insert_kodegen_toml c) = insert_kodegen_toml c := by
  cases c with
  | table kvs =>
    rcases hm : findKV "mcpServers" kvs with _ | v
    · rw [configured_toml_insert kvs (Or.inl hm)] at h
      exact absurd h (by simp)
    · cases v with
      | table s =>
        rw [configured_toml_insert kvs (Or.inr ⟨s, hm⟩)] at h
        exact absurd h (by simp)
      | str s =>
        have hbad := insert_toml_bad kvs _ hm (fun s hs => nomatch hs)
        rw [hbad, hbad]
      | int n =>
        have hbad := insert_toml_bad kvs _ hm (fun s hs => nomatch hs)
        rw [hbad, hbad]
      | flt r =>
        have hbad := insert_toml_bad kvs _ hm (fun s hs => nomatch hs)
        rw [hbad, hbad]
      | bool b =>
        have hbad := insert_toml_bad kvs _ hm (fun s hs => nomatch hs)
        rw [hbad, hbad]
      | datetime s =>
        have hbad := insert_toml_bad kvs _ hm (fun s hs => nomatch hs)
        rw [hbad, hbad]
      | arr xs =>
        have hbad := insert_toml_bad kvs _ hm (fun s hs => nomatch hs)
        rw [hbad, hbad]
  | str s => rfl
  | int n => rfl
  | flt r => rfl
  | bool b => rfl
  | datetime s => rfl
  | arr xs => rfl

theorem merge_toml_idem (p : String → Except String TValue)
    (q : TValue → Except String String) (doc out : String)
    (hrt : ∀ v s, q v = Except.ok s → p s = Except.ok v)
    (hne : isBlank out = false)
    (h : merge_toml p q doc = Except.ok out) :
    merge_toml p q out = Except.ok out := by
  by_cases hb : isBlank doc = true
  · rw [merge_toml] at h
    simp only [hb, if_true] at h
    have hc0 : configured_toml (TValue.table []) = false := by decide
    simp only [hc0, Bool.false_eq_true, if_false] at h
    have hp2 := hrt _ _ h
    have hw : configured_toml (insert_kodegen_toml (TValue.table [])) = true := by decide
    rw [merge_toml]
    simp [hne, hp2, hw]
  · rw [merge_toml] at h
    simp only [hb, if_false] at h
    cases hp : p doc with
    | error e => rw [hp] at h; simp at h
    | ok config =>
      rw [hp] at h
      by_cases hcfg : configured_toml config = true
      · simp [hcfg] at h
        have hdo : doc = out := by simpa using h
        subst hdo
        rw [merge_toml]
        simp [hb, hp, hcfg]
      · simp [hcfg] at h
        have hp2 := hrt _ _ h
        rw [merge_toml]
        by_cases hw : configured_toml (insert_kodegen_toml config) = true
        · simp [hne, hp2, hw]
        · have hfix := insert_toml_fix config (by simpa using hw)
          simp [hne, hp2, hw, hfix, h]

theorem insert_yaml_none (m : List (YValue × YValue))
    (hm : findKV (YValue.str "mcpServers") m = none) :
    insert_kodegen_yaml (YValue.map m) =
      YValue.map (setKV (YValue.str "mcpServers")
        (YValue.map [(YValue.str "kodegen", kodegenEntryYaml)])
        (m ++ [(YValue.str "mcpServers", YValue.map [])])) := by
  have h1 : findKV (YValue.str "mcpServers") (m ++ [(YValue.str "mcpServers", YValue.map [])]) =
      some (YValue.map []) := findKV_append_self _ hm
  simp [insert_kodegen_yaml, hm, h1, kodegen_config, kodegenEntryYaml, findKV, setKV]

theorem insert_yaml_map (m servers : List (YValue × YValue))
    (hm : findKV (YValue.str "mcpServers") m = some (YValue.map servers)) :
    insert_kodegen_yaml (YValue.map m) =
      YValue.map (setKV (YValue.str "mcpServers")
        (YValue.map (setKV (YValue.str "kodegen") kodegenEntryYaml servers)) m) := by
  simp [insert_kodegen_yaml, hm, kodegen_config, kodegenEntryYaml, findKV]

theorem insert_yaml_bad (m : List (YValue × YValue)) (v : YValue)
    (hm : findKV (YValue.str "mcpServers") m = some v) (hv : ∀ s, v ≠ YValue.map s) :
    insert_kodegen_yaml (YValue.map m) = YValue.map m := by
  cases v with
  | map s => exact absurd rfl (hv s)
  | null => simp [insert_kodegen_yaml, hm]
  | bool b => simp [insert_kodegen_yaml, hm]
  | num n => simp [insert_kodegen_yaml, hm]
  | str s => simp [insert_kodegen_yaml, hm]
  | seq xs => simp [insert_kodegen_yaml, hm]
  | tagged t w => simp [insert_kodegen_yaml, hm]

theorem configured_yaml_insert (m : List (YValue × YValue))
    (h : findKV (YValue.str "mcpServers") m = none ∨
         ∃ s, findKV (YValue.str "mcpServers") m = some (YValue.map s)) :
    configured_yaml (insert_kodegen_yaml (YValue.map m)) = true := by
  rcases h with hm | ⟨s, hm⟩
  · rw [insert_yaml_none m hm]
    simp [configured_yaml, findKV_setKV_self, findKV_singleton]
  · rw [insert_yaml_map m s hm]
    simp [configured_yaml, findKV_setKV_self]

theorem insert_yaml_fix (c : YValue)
    (h : configured_yaml (insert_kodegen_yaml c) = false) :
    insert_kodegen_yaml (insert_kodegen_yaml c) = insert_kodegen_yaml c := by
  cases c with
  | map m =>
    rcases hm : findKV (YValue.str "mcpServers") m with _ | v
    · rw [configured_yaml_insert m (Or.inl hm)] at h
      exact absurd h (by simp)
    · cases v with
      | map s =>
        rw [configured_yaml_insert m (Or.inr ⟨s, hm⟩)] at h
        exact absurd h (by simp)
      | null =>
        have hbad := insert_yaml_bad m _ hm (fun s hs => nomatch hs)
        rw [hbad, hbad]
      | bool b =>
        have hbad := insert_yaml_bad m _ hm (fun s hs => nomatch hs)
        rw [hbad, hbad]
      | num n =>
        have hbad := insert_yaml_bad m _ hm (fun s hs => nomatch hs)
        rw [hbad, hbad]
      | str s =>
        have hbad := insert_yaml_bad m _ hm (fun s hs => nomatch hs)
        rw [hbad, hbad]
      | seq xs =>
        have hbad := insert_yaml_bad m _ hm (fun s hs => nomatch hs)
        rw [hbad, hbad]
      | tagged t w =>
        have hbad := insert_yaml_bad m _ hm (fun s hs => nomatch hs)
        rw [hbad, hbad]
  | null => rfl
  | bool b => rfl
  | num n => rfl
  | str s => rfl
  | seq xs => rfl
  | tagged t w => rfl

theorem merge_yaml_idem (p : String → Except String YValue)
    (q : YValue → Except String String) (doc out : String)
    (hrt : ∀ v s, q v = Except.ok s → p s = Except.ok v)
    (hne : isBlank out = false)
    (h : merge_yaml p q doc = Except.ok out) :
    merge_yaml p q out = Except.ok out := by
  by_cases hb : isBlank doc = true
  · rw [merge_yaml] at h
    simp only [hb, if_true] at h
    have hc0 : configured_yaml (YValue.map []) = false := by decide
    simp only [hc0, Bool.false_eq_true, if_false] at h
    cases hq : q (insert_kodegen_yaml (YValue.map [])) with
    | error e => rw [hq] at h; simp at h
    | ok s =>
      rw [hq] at h
      simp at h
      subst h
      have hp2 := hrt _ _ hq
      have hw : configured_yaml (insert_kodegen_yaml (YValue.map [])) = true := by decide
      rw [merge_yaml]
      simp [hne, hp2, hw, Except.mapError]
  · rw [merge_yaml] at h
    simp only [hb, if_false] at h
    cases hp : p doc with
    | error e => rw [hp] at h; simp [Except.mapError] at h
    | ok config =>
      rw [hp] at h
      simp only [Except.mapError] at h
      by_cases hcfg : configured_yaml config = true
      · simp [hcfg] at h
        have hdo : doc = out := by simpa using h
        subst hdo
        rw [merge_yaml]
        simp [hb, hp, hcfg, Except.mapError]
      · simp [hcfg] at h
        cases hq : q (insert_kodegen_yaml config) with
        | error e => rw [hq] at h; simp at h
        | ok s =>
          rw [hq] at h
          simp at h
          subst h
          have hp2 := hrt _ _ hq
          rw [merge_yaml]
          by_cases hw : configured_yaml (insert_kodegen_yaml config) = true
          · simp [hne, hp2, hw, Except.mapError]
          · have hfix := insert_yaml_fix config (by simpa using hw)
            simp [hne, hp2, hw, hfix, hq, Except.mapError]

theorem insert_plist_none (kvs : List (String × PValue))
    (hm : findKV "mcpServers" kvs = none) :
    insert_kodegen_plist (PValue.dict kvs) =
      PValue.dict (setKV "mcpServers" (PValue.dict [("kodegen", kodegenEntryPlist)])
        (kvs ++ [("mcpServers", PValue.dict [])])) := by
  have h1 : findKV "mcpServers" (kvs ++ [("mcpServers", PValue.dict [])]) =
      some (PValue.dict []) := findKV_append_self _ hm
  simp [insert_kodegen_plist, hm, h1, kodegen_config, kodegenEntryPlist, findKV, setKV]

theorem insert_plist_dict (kvs servers : List (String × PValue))
    (hm : findKV "mcpServers" kvs = some (PValue.dict servers)) :
    insert_kodegen_plist (PValue.dict kvs) =
      PValue.dict (setKV "mcpServers"
        (PValue.dict (setKV "kodegen" kodegenEntryPlist servers)) kvs) := by
  simp [insert_kodegen_plist, hm, kodegen_config, kodegenEntryPlist, findKV]

theorem insert_plist_bad (kvs : List (String × PValue)) (v : PValue)
    (hm : findKV "mcpServers" kvs = some v) (hv : ∀ s, v ≠ PValue.dict s) :
    insert_kodegen_plist (PValue.dict kvs) = PValue.dict kvs := by
  cases v with
  | dict s => exact absurd rfl (hv s)
  | str s => simp [insert_kodegen_plist, hm]
  | int n => simp [insert_kodegen_plist, hm]
  | real r => simp [insert_kodegen_plist, hm]
  | bool b => simp [insert_kodegen_plist, hm]
  | date s => simp [insert_kodegen_plist, hm]
  | data bs => simp [insert_kodegen_plist, hm]
  | arr xs => simp [insert_kodegen_plist, hm]

theorem configured_plist_insert (kvs : List (String × PValue))
    (h : findKV "mcpServers" kvs = none ∨
         ∃ s, findKV "mcpServers" kvs = some (PValue.dict s)) :
    configured_plist (insert_kodegen_plist (PValue.dict kvs)) = true := by
  rcases h with hm | ⟨s, hm⟩
  · rw [insert_plist_none kvs hm]
    simp [configured_plist, findKV_setKV_self, findKV_singleton]
  · rw [insert_plist_dict kvs s hm]
    simp [configured_plist, findKV_setKV_self]

theorem insert_plist_fix (c : PValue)
    (h : configured_plist (insert_kodegen_plist c) = false) :
    insert_kodegen_plist (insert_kodegen_plist c) = insert_kodegen_plist c := by
  cases c with
  | dict kvs =>
    rcases hm : findKV "mcpServers" kvs with _ | v
    · rw [configured_plist_insert kvs (Or.inl hm)] at h
      exact absurd h (by simp)
    · cases v with
      | dict s =>
        rw [configured_plist_insert kvs (Or.inr ⟨s, hm⟩)] at h
        exact absurd h (by simp)
      | str s =>
        have hbad := insert_plist_bad kvs _ hm (fun s hs => nomatch hs)
        rw [hbad, hbad]
      | int n =>
        have hbad := insert_plist_bad kvs _ hm (fun s hs => nomatch hs)
        rw [hbad, hbad]
      | real r =>
        have hbad := insert_plist_bad kvs _ hm (fun s hs => nomatch hs)
        rw [hbad, hbad]
      | bool b =>
        have hbad := insert_plist_bad kvs _ hm (fun s hs => nomatch hs)
        rw [hbad, hbad]
      | date s =>
        have hbad := insert_plist_bad kvs _ hm (fun s hs => nomatch hs)
        rw [hbad, hbad]
      | data bs =>
        have hbad := insert_plist_bad kvs _ hm (fun s hs => nomatch hs)
        rw [hbad, hbad]
      | arr xs =>
        have hbad := insert_plist_bad kvs _ hm (fun s hs => nomatch hs)
        rw [hbad, hbad]
  | str s => rfl
  | int n => rfl
  | real r => rfl
  | bool b => rfl
  | date s => rfl
  | data bs => rfl
  | arr xs => rfl

theorem merge_plist_idem (p : String → Except String PValue)
    (q : PValue → Except String String) (doc out : String)
    (hrt : ∀ v s, q v = Except.ok s → p s = Except.ok v)
    (hne : isBlank out = false)
    (h : merge_plist_macos p q doc = Except.ok out) :
    merge_plist_macos p q out = Except.ok out := by
  by_cases hb : isBlank doc = true
  · rw [merge_plist_macos] at h
    simp only [hb, if_true] at h
    have hc0 : configured_plist (PValue.dict []) = false := by decide
    simp only [hc0, Bool.false_eq_true, if_false] at h
    cases hq : q (insert_kodegen_plist (PValue.dict [])) with
    | error e => rw [hq] at h; simp at h
    | ok s =>
      rw [hq] at h
      simp at h
      subst h
      have hp2 := hrt _ _ hq
      have hw : configured_plist (insert_kodegen_plist (PValue.dict [])) = true := by decide
      rw [merge_plist_macos]
      simp [hne, hp2, hw, Except.mapError]
  · rw [merge_plist_macos] at h
    simp only [hb, if_false] at h
    cases hp : p doc with
    | error e => rw [hp] at h; simp [Except.mapError] at h
    | ok config =>
      rw [hp] at h
      simp only [Except.mapError] at h
      by_cases hcfg : configured_plist config = true
      · simp [hcfg] at h
        have hdo : doc = out := by simpa using h
        subst hdo
        rw [merge_plist_macos]
        simp [hb, hp, hcfg, Except.mapError]
      · simp [hcfg] at h
        cases hq : q (insert_kodegen_plist config) with
        | error e => rw [hq] at h; simp at h
        | ok s =>
          rw [hq] at h
          simp at h
          subst h
          have hp2 := hrt _ _ hq
          rw [merge_plist_macos]
          by_cases hw : configured_plist (insert_kodegen_plist config) = true
          · simp [hne, hp2, hw, Except.mapError]
          · have hfix := insert_plist_fix config (by simpa using hw)
            simp [hne, hp2, hw, hfix, hq, Except.mapError]

/-- C2: for every format and every syntactically valid document on which
merge succeeds, merging the merged output again returns it byte-identically.
Stated per format over ConfigMerger.merge under the round-trip contract of
the external serializer (parse of a serializer output yields the serialized
value) and the fact that serializer output is never whitespace-only; the
Plist case is stated on the macOS build, the only build on which a Plist
merge can succeed. -/
theorem spec_c2_merge_idempotent :
    (∀ (L : SerdeLibs) (b : Bool) (doc out : String),
        (∀ v s, L.jsonPretty v = Except.ok s → L.jsonParse s = Except.ok v) →
        isBlank out = false →
        ConfigMerger.merge L b doc ConfigFormat.Json = Except.ok out →
        ConfigMerger.merge L b out ConfigFormat.Json = Except.ok out) ∧
    (∀ (L : SerdeLibs) (b : Bool) (doc out : String),
        (∀ v s, L.tomlPretty v = Except.ok s → L.tomlParse s = Except.ok v) →
        isBlank out = false →
        ConfigMerger.merge L b doc ConfigFormat.Toml = Except.ok out →
        ConfigMerger.merge L b out ConfigFormat.Toml = Except.ok out) ∧
    (∀ (L : SerdeLibs) (b : Bool) (doc out : String),
        (∀ v s, L.yamlPretty v = Except.ok s → L.yamlParse s = Except.ok v) →
        isBlank out = false →
        ConfigMerger.merge L b doc ConfigFormat.Yaml = Except.ok out →
        ConfigMerger.merge L b out ConfigFormat.Yaml = Except.ok out) ∧
    (∀ (L : SerdeLibs) (doc out : String),
        (∀ v s, L.plistPretty v = Except.ok s → L.plistParse s = Except.ok v) →
        isBlank out = false →
        ConfigMerger.merge L true doc ConfigFormat.Plist = Except.ok out →
        ConfigMerger.merge L true out ConfigFormat.Plist = Except.ok out) := by
  refine ⟨?_, ?_, ?_, ?_⟩
  · intro L b doc out hrt hne h
    exact merge_json_idem _ _ _ _ hrt hne h
  · intro L b doc out hrt hne h
    exact merge_toml_idem _ _ _ _ hrt hne h
  · intro L b doc out hrt hne h
    exact merge_yaml_idem _ _ _ _ hrt hne h
  · intro L doc out hrt hne h
    exact merge_plist_idem _ _ _ _ hrt hne h

/-- Witness for C2: the idempotence theorem applied, for each format, to
the concrete configured document D under the cfgLibs library bundle. -/
theorem spec_c2_merge_idempotent_witness :
    ConfigMerger.merge cfgLibs true "D" ConfigFormat.Json = Except.ok "D" ∧
    ConfigMerger.merge cfgLibs true "D" ConfigFormat.Toml = Except.ok "D" ∧
    ConfigMerger.merge cfgLibs true "D" ConfigFormat.Yaml = Except.ok "D" ∧
    ConfigMerger.merge cfgLibs true "D" ConfigFormat.Plist = Except.ok "D" := by
  refine ⟨?_, ?_, ?_, ?_⟩
  · exact spec_c2_merge_idempotent.1 cfgLibs true "D" "D"
      (fun v s hv => by simp [cfgLibs, errLibs] at hv) (by decide) (by decide)
  · exact spec_c2_merge_idempotent.2.1 cfgLibs true "D" "D"
      (fun v s hv => by simp [cfgLibs, errLibs] at hv) (by decide) (by decide)
  · exact spec_c2_merge_idempotent.2.2.1 cfgLibs true "D" "D"
      (fun v s hv => by simp [cfgLibs, errLibs] at hv) (by decide) (by decide)
  · exact spec_c2_merge_idempotent.2.2.2 cfgLibs "D" "D"
      (fun v s hv => by simp [cfgLibs, errLibs] at hv) (by decide) (by decide)

/-- C5: for every format, when the parsed document already contains the
kodegen entry under the registrations key, merge returns the original
input string itself, with no re-serialization.  Stated for Json, Toml and
Yaml on either build and for Plist on the macOS build, the only build on
which a Plist document is ever parsed. -/
theorem spec_c5_fast_path_purity :
    (∀ (L : SerdeLibs) (b : Bool) (doc : String) (config : JValue),
        L.jsonParse doc = Except.ok config → configured_json config = true →
        isBlank doc = false →
        ConfigMerger.merge L b doc ConfigFormat.Json = Except.ok doc) ∧
    (∀ (L : SerdeLibs) (b : Bool) (doc : String) (config : TValue),
        L.tomlParse doc = Except.ok config → configured_toml config = true →
        isBlank doc = false →
        ConfigMerger.merge L b doc ConfigFormat.Toml = Except.ok doc) ∧
    (∀ (L : SerdeLibs) (b : Bool) (doc : String) (config : YValue),
        L.yamlParse doc = Except.ok config → configured_yaml config = true →
        isBlank doc = false →
        ConfigMerger.merge L b doc ConfigFormat.Yaml = Except.ok doc) ∧
    (∀ (L : SerdeLibs) (doc : String) (config : PValue),
        L.plistParse doc = Except.ok config → configured_plist config = true →
        isBlank doc = false →
        ConfigMerger.merge L true doc ConfigFormat.Plist = Except.ok doc) := by
  refine ⟨?_, ?_, ?_, ?_⟩
  · intro L b doc config hp hc hb
    show merge_json L.jsonParse L.jsonPretty doc = Except.ok doc
    rw [merge_json]
    simp [hb, hp, hc]
  · intro L b doc config hp hc hb
    show merge_toml L.tomlParse L.tomlPretty doc = Except.ok doc
    rw [merge_toml]
    simp [hb, hp, hc]
  · intro L b doc config hp hc hb
    show merge_yaml L.yamlParse L.yamlPretty doc = Except.ok doc
    rw [merge_yaml]
    simp [hb, hp, hc, Except.mapError]
  · intro L doc config hp hc hb
    show merge_plist_macos L.plistParse L.plistPretty doc = Except.ok doc
    rw [merge_plist_macos]
    simp [hb, hp, hc, Except.mapError]

/-- Witness for C5: the fast-path theorem applied per format to the
concrete configured document D under the cfgLibs library bundle. -/
theorem spec_c5_fast_path_purity_witness :
    ConfigMerger.merge cfgLibs false "D" ConfigFormat.Json = Except.ok "D" ∧
    ConfigMerger.merge cfgLibs false "D" ConfigFormat.Toml = Except.ok "D" ∧
    ConfigMerger.merge cfgLibs false "D" ConfigFormat.Yaml = Except.ok "D" ∧
    ConfigMerger.merge cfgLibs true "D" ConfigFormat.Plist = Except.ok "D" := by
  refine ⟨?_, ?_, ?_, ?_⟩
  · exact spec_c5_fast_path_purity.1 cfgLibs false "D" cfgJ (by decide) (by decide) (by decide)
  · exact spec_c5_fast_path_purity.2.1 cfgLibs false "D" cfgT (by decide) (by decide) (by decide)
  · exact spec_c5_fast_path_purity.2.2.1 cfgLibs false "D" cfgY (by decide) (by decide) (by decide)
  · exact spec_c5_fast_path_purity.2.2.2 cfgLibs "D" cfgP (by decide) (by decide) (by decide)

theorem frame_json (kvs : List (String × JValue)) :
    (∀ k, k ≠ "mcpServers" → (merge_result_json kvs).get? k = findKV k kvs) ∧
    (∀ servers k, findKV "mcpServers" kvs = some (JValue.obj servers) → k ≠ "kodegen" →
      ((merge_result_json kvs).get? "mcpServers").bind (fun s => JValue.get? s k) =
        findKV k servers) := by
  by_cases hc : configured_json (JValue.obj kvs) = true
  · constructor
    · intro k hk
      simp [merge_result_json, hc, JValue.get?]
    · intro servers k hs hk
      simp [merge_result_json, hc, JValue.get?, hs]
  · rcases hm : findKV "mcpServers" kvs with _ | v
    · constructor
      · intro k hk
        rw [merge_result_json, if_neg hc, insert_json_none kvs hm]
        rw [JValue.get?]
        rw [findKV_setKV_ne _ _ hk, findKV_append_ne _ _ hk]
      · intro servers k hs hk
        simp at hs
    · cases v with
      | obj s =>
        constructor
        · intro k hk
          rw [merge_result_json, if_neg hc, insert_json_obj kvs s hm]
          rw [JValue.get?]
          rw [findKV_setKV_ne _ _ hk]
        · intro servers k hs hk
          have hss : s = servers := by
            have := Option.some.inj hs
            exact (JValue.obj.inj this)
          subst hss
          rw [merge_result_json, if_neg hc, insert_json_obj kvs s hm]
          rw [JValue.get?]
          rw [findKV_setKV_self]
          simp [JValue.get?, findKV_setKV_ne _ _ hk]
      | null =>
        have hbad := insert_json_bad kvs _ hm (fun s hs => nomatch hs)
        refine ⟨fun k hk => ?_, fun servers k hs hk => ?_⟩
        · rw [merge_result_json, if_neg hc, hbad, JValue.get?]
        · simp at hs
      | bool b =>
        have hbad := insert_json_bad kvs _ hm (fun s hs => nomatch hs)
        refine ⟨fun k hk => ?_, fun servers k hs hk => ?_⟩
        · rw [merge_result_json, if_neg hc, hbad, JValue.get?]
        · simp at hs
      | num n =>
        have hbad := insert_json_bad kvs _ hm (fun s hs => nomatch hs)
        refine ⟨fun k hk => ?_, fun servers k hs hk => ?_⟩
        · rw [merge_result_json, if_neg hc, hbad, JValue.get?]
        · simp at hs
      | str s =>
        have hbad := insert_json_bad kvs _ hm (fun s hs => nomatch hs)
        refine ⟨fun k hk => ?_, fun servers k hs hk => ?_⟩
        · rw [merge_result_json, if_neg hc, hbad, JValue.get?]
        · simp at hs
      | arr xs =>
        have hbad := insert_json_bad kvs _ hm (fun s hs => nomatch hs)
        refine ⟨fun k hk => ?_, fun servers k hs hk => ?_⟩
        · rw [merge_result_json, if_neg hc, hbad, JValue.get?]
        · simp at hs

theorem frame_toml (kvs : List (String × TValue)) :
    (∀ k, k ≠ "mcpServers" → (merge_result_toml kvs).get? k = findKV k kvs) ∧
    (∀ servers k, findKV "mcpServers" kvs = some (TValue.table servers) → k ≠ "kodegen" →
      ((merge_result_toml kvs).get? "mcpServers").bind (fun s => TValue.get? s k) =
        findKV k servers) := by
  by_cases hc : configured_toml (TValue.table kvs) = true
  · constructor
    · intro k hk
      simp [merge_result_toml, hc, TValue.get?]
    · intro servers k hs hk
      simp [merge_result_toml, hc, TValue.get?, hs]
  · rcases hm : findKV "mcpServers" kvs with _ | v
    · constructor
      · intro k hk
        rw [merge_result_toml, if_neg hc, insert_toml_none kvs hm]
        rw [TValue.get?]
        rw [findKV_setKV_ne _ _ hk, findKV_append_ne _ _ hk]
      · intro servers k hs hk
        simp at hs
    · cases v with
      | table s =>
        constructor
        · intro k hk
          rw [merge_result_toml, if_neg hc, insert_toml_table kvs s hm]
          rw [TValue.get?]
          rw [findKV_setKV_ne _ _ hk]
        · intro servers k hs hk
          have hss : s = servers := by
            have := Option.some.inj hs
            exact (TValue.table.inj this)
          subst hss
          rw [merge_result_toml, if_neg hc, insert_toml_table kvs s hm]
          rw [TValue.get?]
          rw [findKV_setKV_self]
          simp [TValue.get?, findKV_setKV_ne _ _ hk]
      | str s =>
        have hbad := insert_toml_bad kvs _ hm (fun s hs => nomatch hs)
        refine ⟨fun k hk => ?_, fun servers k hs hk => ?_⟩
        · rw [merge_result_toml, if_neg hc, hbad, TValue.get?]
        · simp at hs
      | int n =>
        have hbad := insert_toml_bad kvs _ hm (fun s hs => nomatch hs)
        refine ⟨fun k hk => ?_, fun servers k hs hk => ?_⟩
        · rw [merge_result_toml, if_neg hc, hbad, TValue.get?]
        · simp at hs
      | flt r =>
        have hbad := insert_toml_bad kvs _ hm (fun s hs => nomatch hs)
        refine ⟨fun k hk => ?_, fun servers k hs hk => ?_⟩
        · rw [merge_result_toml, if_neg hc, hbad, TValue.get?]
        · simp at hs
      | bool b =>
        have hbad := insert_toml_bad kvs _ hm (fun s hs => nomatch hs)
        refine ⟨fun k hk => ?_, fun servers k hs hk => ?_⟩
        · rw [merge_result_toml, if_neg hc, hbad, TValue.get?]
        · simp at hs
      | datetime s =>
        have hbad := insert_toml_bad kvs _ hm (fun s hs => nomatch hs)
        refine ⟨fun k hk => ?_, fun servers k hs hk => ?_⟩
        · rw [merge_result_toml, if_neg hc, hbad, TValue.get?]
        · simp at hs
      | arr xs =>
        have hbad := insert_toml_bad kvs _ hm (fun s hs => nomatch hs)
        refine ⟨fun k hk => ?_, fun servers k hs hk => ?_⟩
        · rw [merge_result_toml, if_neg hc, hbad, TValue.get?]
        · simp at hs

theorem frame_yaml (m : List (YValue × YValue)) :
    (∀ k, k ≠ (YValue.str "mcpServers") → (merge_result_yaml m).get? k = findKV k m) ∧
    (∀ servers k, findKV (YValue.str "mcpServers") m = some (YValue.map servers) → k ≠ (YValue.str "kodegen") →
      ((merge_result_yaml m).get? (YValue.str "mcpServers")).bind (fun s => YValue.get? s k) =
        findKV k servers) := by
  by_cases hc : configured_yaml (YValue.map m) = true
  · constructor
    · intro k hk
      simp [merge_result_yaml, hc, YValue.get?]
    · intro servers k hs hk
      simp [merge_result_yaml, hc, YValue.get?, hs]
  · rcases hm : findKV (YValue.str "mcpServers") m with _ | v
    · constructor
      · intro k hk
        rw [merge_result_yaml, if_neg hc, insert_yaml_none m hm]
        rw [YValue.get?]
        rw [findKV_setKV_ne _ _ hk, findKV_append_ne _ _ hk]
      · intro servers k hs hk
        simp at hs
    · cases v with
      | map s =>
        constructor
        · intro k hk
          rw [merge_result_yaml, if_neg hc, insert_yaml_map m s hm]
          rw [YValue.get?]
          rw [findKV_setKV_ne _ _ hk]
        · intro servers k hs hk
          have hss : s = servers := by
            have := Option.some.inj hs
            exact (YValue.map.inj this)
          subst hss
          rw [merge_result_yaml, if_neg hc, insert_yaml_map m s hm]
          rw [YValue.get?]
          rw [findKV_setKV_self]
          simp [YValue.get?, findKV_setKV_ne _ _ hk]
      | null =>
        have hbad := insert_yaml_bad m _ hm (fun s hs => nomatch hs)
        refine ⟨fun k hk => ?_, fun servers k hs hk => ?_⟩
        · rw [merge_result_yaml, if_neg hc, hbad, YValue.get?]
        · simp at hs
      | bool b =>
        have hbad := insert_yaml_bad m _ hm (fun s hs => nomatch hs)
        refine ⟨fun k hk => ?_, fun servers k hs hk => ?_⟩
        · rw [merge_result_yaml, if_neg hc, hbad, YValue.get?]
        · simp at hs
      | num n =>
        have hbad := insert_yaml_bad m _ hm (fun s hs => nomatch hs)
        refine ⟨fun k hk => ?_, fun servers k hs hk => ?_⟩
        · rw [merge_result_yaml, if_neg hc, hbad, YValue.get?]
        · simp at hs
      | str s =>
        have hbad := insert_yaml_bad m _ hm (fun s hs => nomatch hs)
        refine ⟨fun k hk => ?_, fun servers k hs hk => ?_⟩
        · rw [merge_result_yaml, if_neg hc, hbad, YValue.get?]
        · simp at hs
      | seq xs =>
        have hbad := insert_yaml_bad m _ hm (fun s hs => nomatch hs)
        refine ⟨fun k hk => ?_, fun servers k hs hk => ?_⟩
        · rw [merge_result_yaml, if_neg hc, hbad, YValue.get?]
        · simp at hs
      | tagged t w =>
        have hbad := insert_yaml_bad m _ hm (fun s hs => nomatch hs)
        refine ⟨fun k hk => ?_, fun servers k hs hk => ?_⟩
        · rw [merge_result_yaml, if_neg hc, hbad, YValue.get?]
        · simp at hs

theorem frame_plist (kvs : List (String × PValue)) :
    (∀ k, k ≠ "mcpServers" → (merge_result_plist kvs).get? k = findKV k kvs) ∧
    (∀ servers k, findKV "mcpServers" kvs = some (PValue.dict servers) → k ≠ "kodegen" →
      ((merge_result_plist kvs).get? "mcpServers").bind (fun s => PValue.get? s k) =
        findKV k servers) := by
  by_cases hc : configured_plist (PValue.dict kvs) = true
  · constructor
    · intro k hk
      simp [merge_result_plist, hc, PValue.get?]
    · intro servers k hs hk
      simp [merge_result_plist, hc, PValue.get?, hs]
  · rcases hm : findKV "mcpServers" kvs with _ | v
    · constructor
      · intro k hk
        rw [merge_result_plist, if_neg hc, insert_plist_none kvs hm]
        rw [PValue.get?]
        rw [findKV_setKV_ne _ _ hk, findKV_append_ne _ _ hk]
      · intro servers k hs hk
        simp at hs
    · cases v with
      | dict s =>
        constructor
        · intro k hk
          rw [merge_result_plist, if_neg hc, insert_plist_dict kvs s hm]
          rw [PValue.get?]
          rw [findKV_setKV_ne _ _ hk]
        · intro servers k hs hk
          have hss : s = servers := by
            have := Option.some.inj hs
            exact (PValue.dict.inj this)
          subst hss
          rw [merge_result_plist, if_neg hc, insert_plist_dict kvs s hm]
          rw [PValue.get?]
          rw [findKV_setKV_self]
          simp [PValue.get?, findKV_setKV_ne _ _ hk]
      | str s =>
        have hbad := insert_plist_bad kvs _ hm (fun s hs => nomatch hs)
        refine ⟨fun k hk => ?_, fun servers k hs hk => ?_⟩
        · rw [merge_result_plist, if_neg hc, hbad, PValue.get?]
        · simp at hs
      | int n =>
        have hbad := insert_plist_bad kvs _ hm (fun s hs => nomatch hs)
        refine ⟨fun k hk => ?_, fun servers k hs hk => ?_⟩
        · rw [merge_result_plist, if_neg hc, hbad, PValue.get?]
        · simp at hs
      | real r =>
        have hbad := insert_plist_bad kvs _ hm (fun s hs => nomatch hs)
        refine ⟨fun k hk => ?_, fun servers k hs hk => ?_⟩
        · rw [merge_result_plist, if_neg hc, hbad, PValue.get?]
        · simp at hs
      | bool b =>
        have hbad := insert_plist_bad kvs _ hm (fun s hs => nomatch hs)
        refine ⟨fun k hk => ?_, fun servers k hs hk => ?_⟩
        · rw [merge_result_plist, if_neg hc, hbad, PValue.get?]
        · simp at hs
      | date s =>
        have hbad := insert_plist_bad kvs _ hm (fun s hs => nomatch hs)
        refine ⟨fun k hk => ?_, fun servers k hs hk => ?_⟩
        · rw [merge_result_plist, if_neg hc, hbad, PValue.get?]
        · simp at hs
      | data bs =>
        have hbad := insert_plist_bad kvs _ hm (fun s hs => nomatch hs)
        refine ⟨fun k hk => ?_, fun servers k hs hk => ?_⟩
        · rw [merge_result_plist, if_neg hc, hbad, PValue.get?]
        · simp at hs
      | arr xs =>
        have hbad := insert_plist_bad kvs _ hm (fun s hs => nomatch hs)
        refine ⟨fun k hk => ?_, fun servers k hs hk => ?_⟩
        · rw [merge_result_plist, if_neg hc, hbad, PValue.get?]
        · simp at hs

theorem merge_out_json (L : SerdeLibs) (b : Bool) (doc out : String)
    (kvs : List (String × JValue))
    (hrt : ∀ v s, L.jsonPretty v = Except.ok s → L.jsonParse s = Except.ok v)
    (hb : isBlank doc = false)
    (hp : L.jsonParse doc = Except.ok (JValue.obj kvs))
    (h : ConfigMerger.merge L b doc ConfigFormat.Json = Except.ok out) :
    L.jsonParse out = Except.ok (merge_result_json kvs) := by
  have h' : merge_json L.jsonParse L.jsonPretty doc = Except.ok out := h
  rw [merge_json] at h'
  simp only [hb, Bool.false_eq_true, if_false] at h'
  rw [hp] at h'
  by_cases hc : configured_json (JValue.obj kvs) = true
  · simp [hc] at h'
    rw [merge_result_json, if_pos hc, ← h']
    exact hp
  · simp [hc] at h'
    rw [merge_result_json, if_neg hc]
    exact hrt _ _ h'

theorem merge_out_toml (L : SerdeLibs) (b : Bool) (doc out : String)
    (kvs : List (String × TValue))
    (hrt : ∀ v s, L.tomlPretty v = Except.ok s → L.tomlParse s = Except.ok v)
    (hb : isBlank doc = false)
    (hp : L.tomlParse doc = Except.ok (TValue.table kvs))
    (h : ConfigMerger.merge L b doc ConfigFormat.Toml = Except.ok out) :
    L.tomlParse out = Except.ok (merge_result_toml kvs) := by
  have h' : merge_toml L.tomlParse L.tomlPretty doc = Except.ok out := h
  rw [merge_toml] at h'
  simp only [hb, Bool.false_eq_true, if_false] at h'
  rw [hp] at h'
  by_cases hc : configured_toml (TValue.table kvs) = true
  · simp [hc] at h'
    rw [merge_result_toml, if_pos hc, ← h']
    exact hp
  · simp [hc] at h'
    rw [merge_result_toml, if_neg hc]
    exact hrt _ _ h'

theorem merge_out_yaml (L : SerdeLibs) (b : Bool) (doc out : String)
    (m : List (YValue × YValue))
    (hrt : ∀ v s, L.yamlPretty v = Except.ok s → L.yamlParse s = Except.ok v)
    (hb : isBlank doc = false)
    (hp : L.yamlParse doc = Except.ok (YValue.map m))
    (h : ConfigMerger.merge L b doc ConfigFormat.Yaml = Except.ok out) :
    L.yamlParse out = Except.ok (merge_result_yaml m) := by
  have h' : merge_yaml L.yamlParse L.yamlPretty doc = Except.ok out := h
  rw [merge_yaml] at h'
  simp only [hb, Bool.false_eq_true, if_false] at h'
  rw [hp] at h'
  simp only [Except.mapError] at h'
  by_cases hc : configured_yaml (YValue.map m) = true
  · simp [hc] at h'
    rw [merge_result_yaml, if_pos hc, ← h']
    exact hp
  · simp [hc] at h'
    cases hq : L.yamlPretty (insert_kodegen_yaml (YValue.map m)) with
    | error e => rw [hq] at h'; simp at h'
    | ok s =>
      rw [hq] at h'
      simp at h'
      subst h'
      rw [merge_result_yaml, if_neg hc]
      exact hrt _ _ hq

theorem merge_out_plist (L : SerdeLibs) (doc out : String)
    (kvs : List (String × PValue))
    (hrt : ∀ v s, L.plistPretty v = Except.ok s → L.plistParse s = Except.ok v)
    (hb : isBlank doc = false)
    (hp : L.plistParse doc = Except.ok (PValue.dict kvs))
    (h : ConfigMerger.merge L true doc ConfigFormat.Plist = Except.ok out) :
    L.plistParse out = Except.ok (merge_result_plist kvs) := by
  have h' : merge_plist_macos L.plistParse L.plistPretty doc = Except.ok out := h
  rw [merge_plist_macos] at h'
  simp only [hb, Bool.false_eq_true, if_false] at h'
  rw [hp] at h'
  simp only [Except.mapError] at h'
  by_cases hc : configured_plist (PValue.dict kvs) = true
  · simp [hc] at h'
    rw [merge_result_plist, if_pos hc, ← h']
    exact hp
  · simp [hc] at h'
    cases hq : L.plistPretty (insert_kodegen_plist (PValue.dict kvs)) with
    | error e => rw [hq] at h'; simp at h'
    | ok s =>
      rw [hq] at h'
      simp at h'
      subst h'
      rw [merge_result_plist, if_neg hc]
      exact hrt _ _ hq

/-- C6: for every format and every successfully merged mapping document,
the merged output parses back to the merge-result value, in which every
top-level key other than the registrations key is bound exactly as in the
input, and every entry of the registrations subtree other than the kodegen
entry is bound exactly as in the input.  Stated under the round-trip
contract of the external serializers; the Plist case is on the macOS
build. -/
theorem spec_c6_unrelated_keys_preserved :
    (∀ (L : SerdeLibs) (b : Bool) (doc out : String) (kvs : List (String × JValue)),
        (∀ v s, L.jsonPretty v = Except.ok s → L.jsonParse s = Except.ok v) →
        isBlank doc = false →
        L.jsonParse doc = Except.ok (JValue.obj kvs) →
        ConfigMerger.merge L b doc ConfigFormat.Json = Except.ok out →
        L.jsonParse out = Except.ok (merge_result_json kvs) ∧
        (∀ k, k ≠ "mcpServers" → (merge_result_json kvs).get? k = findKV k kvs) ∧
        (∀ servers k, findKV "mcpServers" kvs = some (JValue.obj servers) →
          k ≠ "kodegen" →
          ((merge_result_json kvs).get? "mcpServers").bind (fun s => JValue.get? s k) =
            findKV k servers)) ∧
    (∀ (L : SerdeLibs) (b : Bool) (doc out : String) (kvs : List (String × TValue)),
        (∀ v s, L.tomlPretty v = Except.ok s → L.tomlParse s = Except.ok v) →
        isBlank doc = false →
        L.tomlParse doc = Except.ok (TValue.table kvs) →
        ConfigMerger.merge L b doc ConfigFormat.Toml = Except.ok out →
        L.tomlParse out = Except.ok (merge_result_toml kvs) ∧
        (∀ k, k ≠ "mcpServers" → (merge_result_toml kvs).get? k = findKV k kvs) ∧
        (∀ servers k, findKV "mcpServers" kvs = some (TValue.table servers) →
          k ≠ "kodegen" →
          ((merge_result_toml kvs).get? "mcpServers").bind (fun s => TValue.get? s k) =
            findKV k servers)) ∧
    (∀ (L : SerdeLibs) (b : Bool) (doc out : String) (m : List (YValue × YValue)),
        (∀ v s, L.yamlPretty v = Except.ok s → L.yamlParse s = Except.ok v) →
        isBlank doc = false →
        L.yamlParse doc = Except.ok (YValue.map m) →
        ConfigMerger.merge L b doc ConfigFormat.Yaml = Except.ok out →
        L.yamlParse out = Except.ok (merge_result_yaml m) ∧
        (∀ k, k ≠ YValue.str "mcpServers" → (merge_result_yaml m).get? k = findKV k m) ∧
        (∀ servers k, findKV (YValue.str "mcpServers") m = some (YValue.map servers) →
          k ≠ YValue.str "kodegen" →
          ((merge_result_yaml m).get? (YValue.str "mcpServers")).bind
              (fun s => YValue.get? s k) =
            findKV k servers)) ∧
    (∀ (L : SerdeLibs) (doc out : String) (kvs : List (String × PValue)),
        (∀ v s, L.plistPretty v = Except.ok s → L.plistParse s = Except.ok v) →
        isBlank doc = false →
        L.plistParse doc = Except.ok (PValue.dict kvs) →
        ConfigMerger.merge L true doc ConfigFormat.Plist = Except.ok out →
        L.plistParse out = Except.ok (merge_result_plist kvs) ∧
        (∀ k, k ≠ "mcpServers" → (merge_result_plist kvs).get? k = findKV k kvs) ∧
        (∀ servers k, findKV "mcpServers" kvs = some (PValue.dict servers) →
          k ≠ "kodegen" →
          ((merge_result_plist kvs).get? "mcpServers").bind (fun s => PValue.get? s k) =
            findKV k servers)) := by
  refine ⟨?_, ?_, ?_, ?_⟩
  · intro L b doc out kvs hrt hb hp h
    exact ⟨merge_out_json L b doc out kvs hrt hb hp h, (frame_json kvs).1, (frame_json kvs).2⟩
  · intro L b doc out kvs hrt hb hp h
    exact ⟨merge_out_toml L b doc out kvs hrt hb hp h, (frame_toml kvs).1, (frame_toml kvs).2⟩
  · intro L b doc out m hrt hb hp h
    exact ⟨merge_out_yaml L b doc out m hrt hb hp h, (frame_yaml m).1, (frame_yaml m).2⟩
  · intro L doc out kvs hrt hb hp h
    exact ⟨merge_out_plist L doc out kvs hrt hb hp h, (frame_plist kvs).1, (frame_plist kvs).2⟩

/-- Witness for C6: the preservation theorem applied per format to the
concrete configured document D under the cfgLibs library bundle. -/
theorem spec_c6_unrelated_keys_preserved_witness :
    cfgLibs.jsonParse "D" = Except.ok (merge_result_json cfgJKvs) ∧
    cfgLibs.tomlParse "D" = Except.ok (merge_result_toml cfgTKvs) ∧
    cfgLibs.yamlParse "D" = Except.ok (merge_result_yaml cfgYKvs) ∧
    cfgLibs.plistParse "D" = Except.ok (merge_result_plist cfgPKvs) := by
  refine ⟨?_, ?_, ?_, ?_⟩
  · exact (spec_c6_unrelated_keys_preserved.1 cfgLibs false "D" "D" cfgJKvs
      (fun v s hv => by simp [cfgLibs, errLibs] at hv) (by decide) (by decide) (by decide)).1
  · exact (spec_c6_unrelated_keys_preserved.2.1 cfgLibs false "D" "D" cfgTKvs
      (fun v s hv => by simp [cfgLibs, errLibs] at hv) (by decide) (by decide) (by decide)).1
  · exact (spec_c6_unrelated_keys_preserved.2.2.1 cfgLibs false "D" "D" cfgYKvs
      (fun v s hv => by simp [cfgLibs, errLibs] at hv) (by decide) (by decide) (by decide)).1
  · exact (spec_c6_unrelated_keys_preserved.2.2.2 cfgLibs "D" "D" cfgPKvs
      (fun v s hv => by simp [cfgLibs, errLibs] at hv) (by decide) (by decide) (by decide)).1

theorem template_json (kvs : List (String × JValue))
    (h : findKV "mcpServers" kvs = none ∨
         ∃ s, findKV "mcpServers" kvs = some (JValue.obj s)) :
    ((insert_kodegen_json (JValue.obj kvs)).get? "mcpServers").bind
      (fun s => JValue.get? s "kodegen") = some kodegenEntryJson := by
  rcases h with hm | ⟨s, hm⟩
  · rw [insert_json_none kvs hm]
    simp [JValue.get?, findKV_setKV_self, findKV_singleton]
  · rw [insert_json_obj kvs s hm]
    simp [JValue.get?, findKV_setKV_self]

theorem template_toml (kvs : List (String × TValue))
    (h : findKV "mcpServers" kvs = none ∨
         ∃ s, findKV "mcpServers" kvs = some (TValue.table s)) :
    ((insert_kodegen_toml (TValue.table kvs)).get? "mcpServers").bind
      (fun s => TValue.get? s "kodegen") = some kodegenEntryToml := by
  rcases h with hm | ⟨s, hm⟩
  · rw [insert_toml_none kvs hm]
    simp [TValue.get?, findKV_setKV_self, findKV_singleton]
  · rw [insert_toml_table kvs s hm]
    simp [TValue.get?, findKV_setKV_self]

theorem template_yaml (m : List (YValue × YValue))
    (h : findKV (YValue.str "mcpServers") m = none ∨
         ∃ s, findKV (YValue.str "mcpServers") m = some (YValue.map s)) :
    ((insert_kodegen_yaml (YValue.map m)).get? (YValue.str "mcpServers")).bind
      (fun s => YValue.get? s (YValue.str "kodegen")) = some kodegenEntryYaml := by
  rcases h with hm | ⟨s, hm⟩
  · rw [insert_yaml_none m hm]
    simp [YValue.get?, findKV_setKV_self, findKV_singleton]
  · rw [insert_yaml_map m s hm]
    simp [YValue.get?, findKV_setKV_self]

theorem template_plist (kvs : List (String × PValue))
    (h : findKV "mcpServers" kvs = none ∨
         ∃ s, findKV "mcpServers" kvs = some (PValue.dict s)) :
    ((insert_kodegen_plist (PValue.dict kvs)).get? "mcpServers").bind
      (fun s => PValue.get? s "kodegen") = some kodegenEntryPlist := by
  rcases h with hm | ⟨s, hm⟩
  · rw [insert_plist_none kvs hm]
    simp [PValue.get?, findKV_setKV_self, findKV_singleton]
  · rw [insert_plist_dict kvs s hm]
    simp [PValue.get?, findKV_setKV_self]

/-- C1 counterexample: a json document that already registers kodegen with
a payload different from the canonical template is returned unchanged by a
successful merge, so the returned document's registrations subtree binds
kodegen to that foreign payload and not to the template. -/
theorem spec_c1_counterexample :
    ConfigMerger.merge c1Libs true "PRE" ConfigFormat.Json = Except.ok "PRE" ∧
    c1Libs.jsonParse "PRE" = Except.ok preCfgJ ∧
    (preCfgJ.get? "mcpServers").bind (fun s => JValue.get? s "kodegen") =
      some (JValue.str "evil") ∧
    JValue.str "evil" ≠ kodegenEntryJson := by
  exact ⟨by decide, by decide, by decide, by decide⟩

/-- C1 amended: for every format, on a successfully merged document whose
top level is a mapping, whose registrations value, when present, is itself
a mapping, and which does not already register kodegen, the output parses
to the slow-path insertion, whose registrations subtree binds kodegen to
exactly the format's canonical template while every other top-level key is
bound exactly as before.  A document that already registers kodegen is
returned unchanged by the fast path (the counterexample), so its existing
entry, canonical or not, persists.  Stated under the serializer round-trip
contract; the Plist case is on the macOS build. -/
theorem spec_c1_template_and_frame :
    (∀ (L : SerdeLibs) (b : Bool) (doc out : String) (kvs : List (String × JValue)),
        (∀ v s, L.jsonPretty v = Except.ok s → L.jsonParse s = Except.ok v) →
        isBlank doc = false →
        L.jsonParse doc = Except.ok (JValue.obj kvs) →
        configured_json (JValue.obj kvs) = false →
        (findKV "mcpServers" kvs = none ∨
          ∃ s, findKV "mcpServers" kvs = some (JValue.obj s)) →
        ConfigMerger.merge L b doc ConfigFormat.Json = Except.ok out →
        L.jsonParse out = Except.ok (insert_kodegen_json (JValue.obj kvs)) ∧
        ((insert_kodegen_json (JValue.obj kvs)).get? "mcpServers").bind
          (fun s => JValue.get? s "kodegen") = some kodegenEntryJson ∧
        (∀ k, k ≠ "mcpServers" →
          (insert_kodegen_json (JValue.obj kvs)).get? k = findKV k kvs)) ∧
    (∀ (L : SerdeLibs) (b : Bool) (doc out : String) (kvs : List (String × TValue)),
        (∀ v s, L.tomlPretty v = Except.ok s → L.tomlParse s = Except.ok v) →
        isBlank doc = false →
        L.tomlParse doc = Except.ok (TValue.table kvs) →
        configured_toml (TValue.table kvs) = false →
        (findKV "mcpServers" kvs = none ∨
          ∃ s, findKV "mcpServers" kvs = some (TValue.table s)) →
        ConfigMerger.merge L b doc ConfigFormat.Toml = Except.ok out →
        L.tomlParse out = Except.ok (insert_kodegen_toml (TValue.table kvs)) ∧
        ((insert_kodegen_toml (TValue.table kvs)).get? "mcpServers").bind
          (fun s => TValue.get? s "kodegen") = some kodegenEntryToml ∧
        (∀ k, k ≠ "mcpServers" →
          (insert_kodegen_toml (TValue.table kvs)).get? k = findKV k kvs)) ∧
    (∀ (L : SerdeLibs) (b : Bool) (doc out : String) (m : List (YValue × YValue)),
        (∀ v s, L.yamlPretty v = Except.ok s → L.yamlParse s = Except.ok v) →
        isBlank doc = false →
        L.yamlParse doc = Except.ok (YValue.map m) →
        configured_yaml (YValue.map m) = false →
        (findKV (YValue.str "mcpServers") m = none ∨
          ∃ s, findKV (YValue.str "mcpServers") m = some (YValue.map s)) →
        ConfigMerger.merge L b doc ConfigFormat.Yaml = Except.ok out →
        L.yamlParse out = Except.ok (insert_kodegen_yaml (YValue.map m)) ∧
        ((insert_kodegen_yaml (YValue.map m)).get? (YValue.str "mcpServers")).bind
          (fun s => YValue.get? s (YValue.str "kodegen")) = some kodegenEntryYaml ∧
        (∀ k, k ≠ YValue.str "mcpServers" →
          (insert_kodegen_yaml (YValue.map m)).get? k = findKV k m)) ∧
    (∀ (L : SerdeLibs) (doc out : String) (kvs : List (String × PValue)),
        (∀ v s, L.plistPretty v = Except.ok s → L.plistParse s = Except.ok v) →
        isBlank doc = false →
        L.plistParse doc = Except.ok (PValue.dict kvs) →
        configured_plist (PValue.dict kvs) = false →
        (findKV "mcpServers" kvs = none ∨
          ∃ s, findKV "mcpServers" kvs = some (PValue.dict s)) →
        ConfigMerger.merge L true doc ConfigFormat.Plist = Except.ok out →
        L.plistParse out = Except.ok (insert_kodegen_plist (PValue.dict kvs)) ∧
        ((insert_kodegen_plist (PValue.dict kvs)).get? "mcpServers").bind
          (fun s => PValue.get? s "kodegen") = some kodegenEntryPlist ∧
        (∀ k, k ≠ "mcpServers" →
          (insert_kodegen_plist (PValue.dict kvs)).get? k = findKV k kvs)) := by
  refine ⟨?_, ?_, ?_, ?_⟩
  · intro L b doc out kvs hrt hb hp hc hshape h
    have hout := merge_out_json L b doc out kvs hrt hb hp h
    rw [merge_result_json, if_neg (by simp [hc])] at hout
    have hfr := (frame_json kvs).1
    rw [merge_result_json, if_neg (by simp [hc])] at hfr
    exact ⟨hout, template_json kvs hshape, hfr⟩
  · intro L b doc out kvs hrt hb hp hc hshape h
    have hout := merge_out_toml L b doc out kvs hrt hb hp h
    rw [merge_result_toml, if_neg (by simp [hc])] at hout
    have hfr := (frame_toml kvs).1
    rw [merge_result_toml, if_neg (by simp [hc])] at hfr
    exact ⟨hout, template_toml kvs hshape, hfr⟩
  · intro L b doc out m hrt hb hp hc hshape h
    have hout := merge_out_yaml L b doc out m hrt hb hp h
    rw [merge_result_yaml, if_neg (by simp [hc])] at hout
    have hfr := (frame_yaml m).1
    rw [merge_result_yaml, if_neg (by simp [hc])] at hfr
    exact ⟨hout, template_yaml m hshape, hfr⟩
  · intro L doc out kvs hrt hb hp hc hshape h
    have hout := merge_out_plist L doc out kvs hrt hb hp h
    rw [merge_result_plist, if_neg (by simp [hc])] at hout
    have hfr := (frame_plist kvs).1
    rw [merge_result_plist, if_neg (by simp [hc])] at hfr
    exact ⟨hout, template_plist kvs hshape, hfr⟩

/-- Witness for the amended C1: the theorem applied per format to the
concrete unconfigured document D merged to OUT under the slowLibs library
bundle. -/
theorem spec_c1_template_and_frame_witness :
    ((insert_kodegen_json (JValue.obj slowJKvs)).get? "mcpServers").bind
      (fun s => JValue.get? s "kodegen") = some kodegenEntryJson ∧
    ((insert_kodegen_toml (TValue.table slowTKvs)).get? "mcpServers").bind
      (fun s => TValue.get? s "kodegen") = some kodegenEntryToml ∧
    ((insert_kodegen_yaml (YValue.map slowYKvs)).get? (YValue.str "mcpServers")).bind
      (fun s => YValue.get? s (YValue.str "kodegen")) = some kodegenEntryYaml ∧
    ((insert_kodegen_plist (PValue.dict slowPKvs)).get? "mcpServers").bind
      (fun s => PValue.get? s "kodegen") = some kodegenEntryPlist := by
  refine ⟨?_, ?_, ?_, ?_⟩
  · exact (spec_c1_template_and_frame.1 slowLibs false "D" "OUT" slowJKvs
      (fun v s hv => by
        by_cases h : v = insert_kodegen_json slowJ
        · subst h
          simp [slowLibs] at hv
          subst hv
          decide
        · simp [slowLibs, h] at hv)
      (by decide) (by decide) (by decide) (Or.inl (by decide)) (by decide)).2.1
  · exact (spec_c1_template_and_frame.2.1 slowLibs false "D" "OUT" slowTKvs
      (fun v s hv => by
        by_cases h : v = insert_kodegen_toml slowT
        · subst h
          simp [slowLibs] at hv
          subst hv
          decide
        · simp [slowLibs, h] at hv)
      (by decide) (by decide) (by decide) (Or.inl (by decide)) (by decide)).2.1
  · exact (spec_c1_template_and_frame.2.2.1 slowLibs false "D" "OUT" slowYKvs
      (fun v s hv => by
        by_cases h : v = insert_kodegen_yaml slowY
        · subst h
          simp [slowLibs] at hv
          subst hv
          decide
        · simp [slowLibs, h] at hv)
      (by decide) (by decide) (by decide) (Or.inl (by decide)) (by decide)).2.1
  · exact (spec_c1_template_and_frame.2.2.2 slowLibs "D" "OUT" slowPKvs
      (fun v s hv => by
        by_cases h : v = insert_kodegen_plist slowP
        · subst h
          simp [slowLibs] at hv
          subst hv
          decide
        · simp [slowLibs, h] at hv)
      (by decide) (by decide) (by decide) (Or.inl (by decide)) (by decide)).2.1

/-- C4 counterexample: in the non-macOS build, merging the empty document
in the Plist format does not succeed; it is the unconditional
capability-unsupported failure, so the claim that merge of the empty
string succeeds for all four formats is false. -/
theorem spec_c4_counterexample :
    isOkE (ConfigMerger.merge errLibs false "" ConfigFormat.Plist) = false := by
  decide

/-- C4 amended: merging an empty or whitespace-only document never consults
the parser, treats the document as the empty mapping, and hands the
serializer exactly the registrations subtree with the single canonical
entry, succeeding whenever the serializer succeeds; this holds for Json,
Toml and Yaml on either build and for Plist on the macOS build, while in
the non-macOS build a Plist merge of any document fails with the
capability-unsupported error. -/
theorem spec_c4_empty_input :
    (∀ (L : SerdeLibs) (b : Bool) (doc s : String), isBlank doc = true →
        L.jsonPretty (insert_kodegen_json (JValue.obj [])) = Except.ok s →
        ConfigMerger.merge L b doc ConfigFormat.Json = Except.ok s) ∧
    insert_kodegen_json (JValue.obj []) =
      JValue.obj [("mcpServers", JValue.obj [("kodegen", kodegenEntryJson)])] ∧
    (∀ (L : SerdeLibs) (b : Bool) (doc s : String), isBlank doc = true →
        L.tomlPretty (insert_kodegen_toml (TValue.table [])) = Except.ok s →
        ConfigMerger.merge L b doc ConfigFormat.Toml = Except.ok s) ∧
    insert_kodegen_toml (TValue.table []) =
      TValue.table [("mcpServers", TValue.table [("kodegen", kodegenEntryToml)])] ∧
    (∀ (L : SerdeLibs) (b : Bool) (doc s : String), isBlank doc = true →
        L.yamlPretty (insert_kodegen_yaml (YValue.map [])) = Except.ok s →
        ConfigMerger.merge L b doc ConfigFormat.Yaml = Except.ok s) ∧
    insert_kodegen_yaml (YValue.map []) =
      YValue.map [(YValue.str "mcpServers",
        YValue.map [(YValue.str "kodegen", kodegenEntryYaml)])] ∧
    (∀ (L : SerdeLibs) (doc s : String), isBlank doc = true →
        L.plistPretty (insert_kodegen_plist (PValue.dict [])) = Except.ok s →
        ConfigMerger.merge L true doc ConfigFormat.Plist = Except.ok s) ∧
    insert_kodegen_plist (PValue.dict []) =
      PValue.dict [("mcpServers", PValue.dict [("kodegen", kodegenEntryPlist)])] ∧
    (∀ (L : SerdeLibs) (doc : String),
        ConfigMerger.merge L false doc ConfigFormat.Plist =
          Except.error "Plist format only supported on macOS") := by
  refine ⟨?_, by decide, ?_, by decide, ?_, by decide, ?_, by decide, fun L doc => rfl⟩
  · intro L b doc s hb hq
    show merge_json L.jsonParse L.jsonPretty doc = Except.ok s
    rw [merge_json]
    have hc0 : configured_json (JValue.obj []) = false := by decide
    simp [hb, hc0, hq]
  · intro L b doc s hb hq
    show merge_toml L.tomlParse L.tomlPretty doc = Except.ok s
    rw [merge_toml]
    have hc0 : configured_toml (TValue.table []) = false := by decide
    simp [hb, hc0, hq]
  · intro L b doc s hb hq
    show merge_yaml L.yamlParse L.yamlPretty doc = Except.ok s
    rw [merge_yaml]
    have hc0 : configured_yaml (YValue.map []) = false := by decide
    simp [hb, hc0, hq]
  · intro L doc s hb hq
    show merge_plist_macos L.plistParse L.plistPretty doc = Except.ok s
    rw [merge_plist_macos]
    have hc0 : configured_plist (PValue.dict []) = false := by decide
    simp [hb, hc0, hq]

/-- Witness for the amended C4: the theorem applied per format to a
whitespace-only document under the okLibs library bundle. -/
theorem spec_c4_empty_input_witness :
    ConfigMerger.merge okLibs true " " ConfigFormat.Json = Except.ok "S" ∧
    ConfigMerger.merge okLibs true " " ConfigFormat.Toml = Except.ok "S" ∧
    ConfigMerger.merge okLibs true " " ConfigFormat.Yaml = Except.ok "S" ∧
    ConfigMerger.merge okLibs true " " ConfigFormat.Plist = Except.ok "S" := by
  refine ⟨?_, ?_, ?_, ?_⟩
  · exact spec_c4_empty_input.1 okLibs true " " "S" (by decide) (by decide)
  · exact spec_c4_empty_input.2.2.1 okLibs true " " "S" (by decide) (by decide)
  · exact spec_c4_empty_input.2.2.2.2.1 okLibs true " " "S" (by decide) (by decide)
  · exact spec_c4_empty_input.2.2.2.2.2.2.1 okLibs " " "S" (by decide) (by decide)

/-- C3 counterexample: the json entry injected by merge carries an empty
env mapping while the toml entry injected by merge carries no env key at
all, so the injected semantic content, including env, is not identical
across the formats. -/
theorem spec_c3_counterexample :
    (jsonSemOf kodegenEntryJson).envKeys = some [] ∧
    (tomlSemOf kodegenEntryToml).envKeys = none ∧
    jsonSemOf kodegenEntryJson ≠ tomlSemOf kodegenEntryToml := by
  decide

/-- C3 amended: the entries injected by merge agree across Json, Toml and
Yaml on the command and on the argument list, and the Json and Yaml
entries agree completely, each carrying an empty env mapping; the Toml
entry alone omits the env field.  The first three conjuncts identify the
compared entries as exactly the values merge injects into the empty
document of each format. -/
theorem spec_c3_cross_format :
    ((insert_kodegen_json (JValue.obj [])).get? "mcpServers").bind
      (fun s => JValue.get? s "kodegen") = some kodegenEntryJson ∧
    ((insert_kodegen_toml (TValue.table [])).get? "mcpServers").bind
      (fun s => TValue.get? s "kodegen") = some kodegenEntryToml ∧
    ((insert_kodegen_yaml (YValue.map [])).get? (YValue.str "mcpServers")).bind
      (fun s => YValue.get? s (YValue.str "kodegen")) = some kodegenEntryYaml ∧
    (jsonSemOf kodegenEntryJson).command = (tomlSemOf kodegenEntryToml).command ∧
    (jsonSemOf kodegenEntryJson).args = (tomlSemOf kodegenEntryToml).args ∧
    jsonSemOf kodegenEntryJson = yamlSemOf kodegenEntryYaml ∧
    (jsonSemOf kodegenEntryJson).command = some "kodegen" ∧
    (jsonSemOf kodegenEntryJson).args = some ["--stdio"] ∧
    (jsonSemOf kodegenEntryJson).envKeys = some [] ∧
    (tomlSemOf kodegenEntryToml).envKeys = none := by
  decide

/-- C7: for every format, a parse failure on a non-blank document makes
merge fail (the failure propagates, with the source's anyhow context
prefixes for Yaml and Plist, and verbatim for Json and Toml), and a
serialization failure of the mutated tree likewise makes merge fail; in
the non-macOS build a Plist merge fails unconditionally.  The input is
never silently treated as an empty document. -/
theorem spec_c7_error_propagation :
    (∀ (L : SerdeLibs) (b : Bool) (doc e : String), isBlank doc = false →
        L.jsonParse doc = Except.error e →
        ConfigMerger.merge L b doc ConfigFormat.Json = Except.error e) ∧
    (∀ (L : SerdeLibs) (b : Bool) (doc e : String) (config : JValue),
        isBlank doc = false → L.jsonParse doc = Except.ok config →
        configured_json config = false →
        L.jsonPretty (insert_kodegen_json config) = Except.error e →
        ConfigMerger.merge L b doc ConfigFormat.Json = Except.error e) ∧
    (∀ (L : SerdeLibs) (b : Bool) (doc e : String), isBlank doc = false →
        L.tomlParse doc = Except.error e →
        ConfigMerger.merge L b doc ConfigFormat.Toml = Except.error e) ∧
    (∀ (L : SerdeLibs) (b : Bool) (doc e : String) (config : TValue),
        isBlank doc = false → L.tomlParse doc = Except.ok config →
        configured_toml config = false →
        L.tomlPretty (insert_kodegen_toml config) = Except.error e →
        ConfigMerger.merge L b doc ConfigFormat.Toml = Except.error e) ∧
    (∀ (L : SerdeLibs) (b : Bool) (doc e : String), isBlank doc = false →
        L.yamlParse doc = Except.error e →
        ConfigMerger.merge L b doc ConfigFormat.Yaml =
          Except.error ("Failed to parse existing YAML: " ++ e)) ∧
    (∀ (L : SerdeLibs) (b : Bool) (doc e : String) (config : YValue),
        isBlank doc = false → L.yamlParse doc = Except.ok config →
        configured_yaml config = false →
        L.yamlPretty (insert_kodegen_yaml config) = Except.error e →
        ConfigMerger.merge L b doc ConfigFormat.Yaml =
          Except.error ("Failed to serialize YAML: " ++ e)) ∧
    (∀ (L : SerdeLibs) (doc e : String), isBlank doc = false →
        L.plistParse doc = Except.error e →
        ConfigMerger.merge L true doc ConfigFormat.Plist =
          Except.error ("Failed to parse existing plist: " ++ e)) ∧
    (∀ (L : SerdeLibs) (doc e : String) (config : PValue),
        isBlank doc = false → L.plistParse doc = Except.ok config →
        configured_plist config = false →
        L.plistPretty (insert_kodegen_plist config) = Except.error e →
        ConfigMerger.merge L true doc ConfigFormat.Plist =
          Except.error ("Failed to serialize plist: " ++ e)) ∧
    (∀ (L : SerdeLibs) (doc : String),
        ConfigMerger.merge L false doc ConfigFormat.Plist =
          Except.error "Plist format only supported on macOS") := by
  refine ⟨?_, ?_, ?_, ?_, ?_, ?_, ?_, ?_, fun L doc => rfl⟩
  · intro L b doc e hb hp
    show merge_json L.jsonParse L.jsonPretty doc = Except.error e
    rw [merge_json]
    simp [hb, hp]
  · intro L b doc e config hb hp hc hq
    show merge_json L.jsonParse L.jsonPretty doc = Except.error e
    rw [merge_json]
    simp [hb, hp, hc, hq]
  · intro L b doc e hb hp
    show merge_toml L.tomlParse L.tomlPretty doc = Except.error e
    rw [merge_toml]
    simp [hb, hp]
  · intro L b doc e config hb hp hc hq
    show merge_toml L.tomlParse L.tomlPretty doc = Except.error e
    rw [merge_toml]
    simp [hb, hp, hc, hq]
  · intro L b doc e hb hp
    show merge_yaml L.yamlParse L.yamlPretty doc =
      Except.error ("Failed to parse existing YAML: " ++ e)
    rw [merge_yaml]
    simp [hb, hp, Except.mapError]
  · intro L b doc e config hb hp hc hq
    show merge_yaml L.yamlParse L.yamlPretty doc =
      Except.error ("Failed to serialize YAML: " ++ e)
    rw [merge_yaml]
    simp [hb, hp, hc, hq, Except.mapError]
  · intro L doc e hb hp
    show merge_plist_macos L.plistParse L.plistPretty doc =
      Except.error ("Failed to parse existing plist: " ++ e)
    rw [merge_plist_macos]
    simp [hb, hp, Except.mapError]
  · intro L doc e config hb hp hc hq
    show merge_plist_macos L.plistParse L.plistPretty doc =
      Except.error ("Failed to serialize plist: " ++ e)
    rw [merge_plist_macos]
    simp [hb, hp, hc, hq, Except.mapError]

/-- Witness for C7: parse failures evaluated on the unparseable document Z
under errLibs, and serialization failures evaluated on the document D
under serFailLibs, for each format. -/
theorem spec_c7_error_propagation_witness :
    ConfigMerger.merge errLibs true "Z" ConfigFormat.Json = Except.error "parse error" ∧
    ConfigMerger.merge serFailLibs true "D" ConfigFormat.Json = Except.error "ser error" ∧
    ConfigMerger.merge errLibs true "Z" ConfigFormat.Toml = Except.error "parse error" ∧
    ConfigMerger.merge serFailLibs true "D" ConfigFormat.Toml = Except.error "ser error" ∧
    ConfigMerger.merge errLibs true "Z" ConfigFormat.Yaml =
      Except.error ("Failed to parse existing YAML: " ++ "parse error") ∧
    ConfigMerger.merge serFailLibs true "D" ConfigFormat.Yaml =
      Except.error ("Failed to serialize YAML: " ++ "ser error") ∧
    ConfigMerger.merge errLibs true "Z" ConfigFormat.Plist =
      Except.error ("Failed to parse existing plist: " ++ "parse error") ∧
    ConfigMerger.merge serFailLibs true "D" ConfigFormat.Plist =
      Except.error ("Failed to serialize plist: " ++ "ser error") := by
  refine ⟨?_, ?_, ?_, ?_, ?_, ?_, ?_, ?_⟩
  · exact spec_c7_error_propagation.1 errLibs true "Z" "parse error" (by decide) (by decide)
  · exact spec_c7_error_propagation.2.1 serFailLibs true "D" "ser error" slowJ
      (by decide) (by decide) (by decide) (by decide)
  · exact spec_c7_error_propagation.2.2.1 errLibs true "Z" "parse error" (by decide) (by decide)
  · exact spec_c7_error_propagation.2.2.2.1 serFailLibs true "D" "ser error" slowT
      (by decide) (by decide) (by decide) (by decide)
  · exact spec_c7_error_propagation.2.2.2.2.1 errLibs true "Z" "parse error"
      (by decide) (by decide)
  · exact spec_c7_error_propagation.2.2.2.2.2.1 serFailLibs true "D" "ser error" slowY
      (by decide) (by decide) (by decide) (by decide)
  · exact spec_c7_error_propagation.2.2.2.2.2.2.1 errLibs "Z" "parse error"
      (by decide) (by decide)
  · exact spec_c7_error_propagation.2.2.2.2.2.2.2.1 serFailLibs "D" "ser error" slowP
      (by decide) (by decide) (by decide) (by decide)

/-- C8: when the candidate config file exists and its raw content contains
the substring kodegen anywhere, the per-path processing reports success
with the message Already configured and performs no filesystem mutation at
all: no backup copy and no write. -/
theorem spec_c8_substring_fast_path :
    ∀ (inject : String → Except String String)
      (readFile parentOf : String → Option String) (path content : String),
      readFile path = some content →
      strContains content "kodegen" = true →
      process_config_file inject readFile parentOf path =
        Except.ok ("Already configured", []) := by
  intro inject readFile parentOf path content hr hc
  rw [process_config_file, hr]
  simp [hc]

/-- Witness for C8: the fast-path theorem applied to a concrete file whose
text mentions kodegen only inside an unrelated sentence. -/
theorem spec_c8_substring_fast_path_witness :
    process_config_file (fun _ => Except.error "e")
      (fun p => if p = "cfg" then some "x kodegen y" else none)
      (fun _ => none) "cfg" = Except.ok ("Already configured", []) := by
  exact spec_c8_substring_fast_path (fun _ => Except.error "e")
    (fun p => if p = "cfg" then some "x kodegen y" else none)
    (fun _ => none) "cfg" "x kodegen y" (by decide) (by decide)

/-- C9: when the candidate config file is absent, the per-path processing
applies the injection function to the empty json document, creates the
parent directory when one exists, writes the injected result to the path,
reports success as Created new config, and its trace contains no backup
copy operation. -/
theorem spec_c9_missing_file :
    ∀ (inject : String → Except String String)
      (readFile parentOf : String → Option String) (path newConfig : String),
      readFile path = none →
      inject "\x7b\x7d" = Except.ok newConfig →
      process_config_file inject readFile parentOf path =
        Except.ok ("Created new config",
          (match parentOf path with
            | some parent => [FsOp.createDirAll parent]
            | none => []) ++ [FsOp.writeFile path newConfig]) ∧
      (∀ src dst, FsOp.copyFile src dst ∉
          ((match parentOf path with
            | some parent => [FsOp.createDirAll parent]
            | none => []) ++ [FsOp.writeFile path newConfig])) := by
  intro inject readFile parentOf path newConfig hr hi
  constructor
  · rw [process_config_file, hr, hi]
  · intro src dst
    cases hpo : parentOf path with
    | none => simp
    | some parent => simp

/-- Witness for C9: the missing-file theorem applied to a concrete absent
path with a concrete parent directory and injection function. -/
theorem spec_c9_missing_file_witness :
    process_config_file
      (fun s => if s = "\x7b\x7d" then Except.ok "NEW" else Except.error "e")
      (fun _ => none) (fun p => if p = "cfg" then some "dir" else none) "cfg" =
      Except.ok ("Created new config",
        [FsOp.createDirAll "dir", FsOp.writeFile "cfg" "NEW"]) := by
  exact ((spec_c9_missing_file
    (fun s => if s = "\x7b\x7d" then Except.ok "NEW" else Except.error "e")
    (fun _ => none) (fun p => if p = "cfg" then some "dir" else none)
    "cfg" "NEW" (by decide) (by decide)).1).trans (by decide)

/-- C10: the Zed plugin's injection result does not depend on its format
argument: for any two declared formats the result is identical, because
the content is always parsed and re-serialized through the json pair. -/
theorem spec_c10_zed_format_independent :
    ∀ (parse : String → Except String JValue) (pretty : JValue → Except String String)
      (config_content : String) (f1 f2 : ConfigFormat),
      ZedPlugin.inject_kodegen parse pretty config_content f1 =
        ZedPlugin.inject_kodegen parse pretty config_content f2 := by
  intro parse pretty config_content f1 f2
  rfl
